import Mathlib

/-!
Verification of the reconciliation core of
`plugins/modules/keycloak_authentication.py`.

The Python module reconciles a declared, ordered list of authentication-flow
executions against the executions fetched from a Keycloak server.  The
embedding below translates the module's pure logic and models its Keycloak
API calls (`kc.*`) as a trace of `GatewayCall` values; the two read calls
(`get_executions_representation`) are answered by a `Gateway` record holding
the server's responses.  A Python exception inside
`create_or_update_executions` is caught by the function's `try/except`, which
calls `module.fail_json`; the embedding models this by a sticky
`failure : Option String` field on the running state, set to the
exception's message and never cleared.

Python dictionaries are modelled as structures whose fields are `Option`s:
for an existing execution fetched from the server, `none` means the key is
absent from the dict (so direct indexing raises `KeyError`); for a desired
execution, the Ansible argument parser materialises every declared suboption
as a key, so each field is a key that is always present whose value may be
`None` (= `none`).
-/

set_option linter.unusedVariables false
set_option maxRecDepth 4096

namespace Keycloak

/-- A desired config dict (`authenticationConfig` suboption): string keys to
string-or-None values, in Python dict (insertion) order. -/
abbrev ConfigMap := List (String × Option String)

/-- An existing execution's stored `authenticationConfig`: string keys to
string values, in Python dict order. -/
abbrev ExistConfig := List (String × String)

/-- One element of `config["authenticationExecutions"]` (a `new_exec` dict).
Every field is a dict key that is present (the Ansible suboption parser always
materialises it); a value of `none` is Python `None`.  The `level` and `id`
keys are absent from the caller-supplied dict and are inserted during the
pass (lines 304 and 321/357/367 of the source); `none` there means the key is
not (yet) present. -/
structure NewExec where
  providerId : Option String := none
  displayName : Option String := none
  requirement : Option String := none
  flowAlias : Option String := none
  authenticationConfig : Option ConfigMap := none
  index : Option Int := none
  level : Option Int := none
  id : Option String := none
deriving Repr, DecidableEq

/-- One element of the list returned by `kc.get_executions_representation`.
A field of `none` means the key is absent from the dict, so that direct
indexing (`existing_exec["id"]` etc.) raises `KeyError`; a present key always
carries a proper value.  `existing_exec.clear()` (lines 351/364) turns the
dict into `{}`, i.e. the structure with every field `none`. -/
structure ExistingExec where
  id : Option String := none
  providerId : Option String := none
  displayName : Option String := none
  requirement : Option String := none
  index : Option Int := none
  level : Option Int := none
  authenticationConfig : Option ExistConfig := none
deriving Repr, DecidableEq

/-- The cleared dict `{}` produced by `existing_exec.clear()`. -/
def clearedExec : ExistingExec := {}

/-- A mutating Keycloak API call issued by the module.  The payload of
`createExecution` / `updateAuthenticationExecutions` is `new_exec` with the
`flowAlias` and `authenticationConfig` keys removed (lines 248-250/257-260),
represented here by setting those two fields to `none`. -/
inductive GatewayCall where
  | createExecution (payload : NewExec) (flowAlias : String)
  | createSubflow (displayName : Option String) (flowAliasParent : String)
  | updateAuthenticationExecutions (flowAlias : String) (payload : NewExec)
  | addAuthenticationConfig (execId : String) (cfg : ConfigMap)
  | changeExecutionPriority (execId : String) (delta : Int)
  | deleteAuthenticationExecution (execId : String)
deriving Repr, DecidableEq

/-- Responses of the two read calls (`kc.get_executions_representation`):
`initial` answers the fetch at line 291, `refetch` answers the re-fetch
inside `create_authentication_execution` (line 253).  At most one re-fetch
can ever happen in a run (the create path aborts right after it), so a single
response suffices. -/
structure Gateway where
  initial : List ExistingExec := []
  refetch : List ExistingExec := []

/-- The local state of one `create_or_update_executions` call: the `levels`
dict, the working copy of the existing executions, the accumulated `changed`
flag, `before`/`after` diff strings and report lines, plus the trace of
mutating Gateway calls issued so far and the pending failure (a raised
exception, turned into `module.fail_json` by the `except` at line 387). -/
structure St where
  levels : List (String × Int) := []
  existing : List ExistingExec := []
  changed : Bool := false
  before : String := ""
  after : String := ""
  errLines : List String := []
  trace : List GatewayCall := []
  failure : Option String := none
deriving Repr, DecidableEq

/-- Record a raised exception; the `except` clause at line 387 turns it into
a `fail_json`, so nothing after it runs. -/
def St.abort (st : St) (msg : String) : St := { st with failure := some msg }

/-- Python dict lookup (`d[k]`), `none` when the key is absent. -/
def lookupAssoc (m : List (String × Int)) (k : String) : Option Int :=
  match m with
  | [] => none
  | (k2, v) :: rest => if k2 == k then some v else lookupAssoc rest k

/-- Python `dict.update({k: v})`: replace the value in place, else append. -/
def updateAssoc (m : List (String × Int)) (k : String) (v : Int) : List (String × Int) :=
  match m with
  | [] => [(k, v)]
  | (k2, v2) :: rest => if k2 == k then (k, v) :: rest else (k2, v2) :: updateAssoc rest k v

/-- Lookup in an existing config dict. -/
def lookupStr (c : ExistConfig) (k : String) : Option String :=
  match c with
  | [] => none
  | (k2, v) :: rest => if k2 == k then some v else lookupStr rest k

/-- `len(l)` as an `Int`, for comparisons against possibly negative indices. -/
def intLength (l : List ExistingExec) : Int := Int.ofNat l.length

/-- Python list indexing `l[i]`: negative indices count from the end; out of
range raises `IndexError`. -/
def pyIndex (l : List ExistingExec) (i : Int) : Except String ExistingExec :=
  let j := if i < 0 then i + intLength l else i
  if 0 ≤ j && j < intLength l then .ok (l.getD j.toNat clearedExec)
  else .error "IndexError: list index out of range"

/-- Python `l[i].clear()` (line 364): replace the dict at Python index `i`
with `{}`.  Only reached after `l[i]` has been indexed successfully, so the
out-of-range case cannot occur. -/
def pySet (l : List ExistingExec) (i : Int) : List ExistingExec :=
  let j := if i < 0 then i + intLength l else i
  if 0 ≤ j && j < intLength l then l.set j.toNat clearedExec else l

/-- Lines 227-233. `get_identifier(execution)`: the `providerId` value when it
is not `None`, else the `displayName` value, else `raise`.  The `raise` at
line 233 formats `"...{exec}".format(execution)` with a positional argument
against a named placeholder, so the `format` call itself raises
`KeyError: exec`; that exception is what propagates. -/
def get_identifier (e : NewExec) : Except String String :=
  match e.providerId with
  | some p => .ok p
  | none =>
    match e.displayName with
    | some d => .ok d
    | none => .error "KeyError: exec"

/-- The name disjunct of the match condition at lines 220-223:
`("providerId" in existing and "providerId" in searched and eq) or
("displayName" in existing and "displayName" in searched and eq)`.  The
searched dict (a `new_exec`) always has both keys, so the membership tests on
it are `True`; equality compares the existing key's value against the
searched value (which may be `None` and then never equal). -/
def identPreMatch (existing : ExistingExec) (searched : NewExec) : Bool :=
  (existing.providerId.isSome && existing.providerId == searched.providerId) ||
  (existing.displayName.isSome && existing.displayName == searched.displayName)

/-- Loop of `find_exec_in_executions` (lines 219-225), carrying the running
`enumerate` index.  The `and existing_exec["level"] == searched_exec["level"]`
conjunct is only evaluated when the name disjunct holds; either `level` key
may then be absent, raising `KeyError`. -/
def findExecGo (searched : NewExec) : Int → List ExistingExec → Except String Int
  | _, [] => .ok (-1)
  | i, e :: rest =>
    if identPreMatch e searched then
      match e.level with
      | none => .error "KeyError: level"
      | some le =>
        match searched.level with
        | none => .error "KeyError: level"
        | some ls => if le == ls then .ok i else findExecGo searched (i + 1) rest
    else findExecGo searched (i + 1) rest

/-- Lines 212-225. `find_exec_in_executions(searched_exec, executions)`:
index of the first existing entry matching `searched_exec`, `-1` if none. -/
def find_exec_in_executions (searched : NewExec) (executions : List ExistingExec) :
    Except String Int :=
  findExecGo searched 0 executions

/-- Python `str.capitalize()`: first character upper-cased, the rest
lower-cased. -/
def pyCapitalize (s : String) : String :=
  match s.data with
  | [] => ""
  | c :: cs => String.mk (c.toUpper :: cs.map Char.toLower)

/-- Python `str(x)` for a string-or-None value. -/
def strOptS : Option String → String
  | none => "None"
  | some s => s

/-- Python `str` rendering of a desired config dict (content is only used
inside diff/report strings, never inspected). -/
def strConfigMap (c : ConfigMap) : String :=
  "\x7b" ++ String.intercalate ", " (c.map (fun p => p.1 ++ ": " ++ strOptS p.2)) ++ "\x7d"

/-- Python `str` rendering of an existing config dict. -/
def strExistConfig (c : ExistConfig) : String :=
  "\x7b" ++ String.intercalate ", " (c.map (fun p => p.1 ++ ": " ++ p.2)) ++ "\x7d"

/-- Python `str` rendering of an optional `Int` valued key. -/
def strOptI : Option Int → String
  | none => "None"
  | some i => toString i

/-- Python `str(new_exec)`: renders every key (they are all present). -/
def strNewExec (n : NewExec) : String :=
  "\x7b" ++ "providerId: " ++ strOptS n.providerId ++
  ", displayName: " ++ strOptS n.displayName ++
  ", requirement: " ++ strOptS n.requirement ++
  ", flowAlias: " ++ strOptS n.flowAlias ++
  ", authenticationConfig: " ++ (match n.authenticationConfig with
     | none => "None"
     | some c => strConfigMap c) ++
  ", index: " ++ strOptI n.index ++
  (match n.level with | none => "" | some l => ", level: " ++ toString l) ++
  (match n.id with | none => "" | some i => ", id: " ++ i) ++ "\x7d"

/-- Python `str(existing_exec)`: renders the keys that are present. -/
def strExistingExec (e : ExistingExec) : String :=
  "\x7b" ++ String.intercalate ", " (List.foldr (fun (p : Option String) acc =>
    match p with | none => acc | some s => s :: acc)
    []
    [e.id.map (fun v => "id: " ++ v),
     e.providerId.map (fun v => "providerId: " ++ v),
     e.displayName.map (fun v => "displayName: " ++ v),
     e.requirement.map (fun v => "requirement: " ++ v),
     e.index.map (fun v => "index: " ++ toString v),
     e.level.map (fun v => "level: " ++ toString v),
     e.authenticationConfig.map (fun v => "authenticationConfig: " ++ strExistConfig v)])
  ++ "\x7d"

/-- Lines 311-314: the keys of `new_exec` whose value is `None` (at that
point the dict holds the six suboption keys plus `level`; `level` was just
assigned and is never `None`, and `id` has not been inserted yet). -/
def noneKeys (n : NewExec) : List String :=
  (if n.providerId == none then ["providerId"] else []) ++
  (if n.displayName == none then ["displayName"] else []) ++
  (if n.requirement == none then ["requirement"] else []) ++
  (if n.flowAlias == none then ["flowAlias"] else []) ++
  (if n.authenticationConfig == none then ["authenticationConfig"] else []) ++
  (if n.index == none then ["index"] else []) ++
  (if n.level == none then ["level"] else [])

/-- Per-key check used by `is_struct_included`: the key is excluded, or the
existing dict holds the same value. -/
def fldIncluded (name : String) (excl : List String) (v w : Option Int) : Bool :=
  excl.contains name || w == v

/-- String-key variant of `fldIncluded`. -/
def fldIncludedS (name : String) (excl : List String) (v w : Option String) : Bool :=
  excl.contains name || w == v

/-- Modelled from the spec: `is_struct_included(new_exec, existing_exec,
exclude_key)` is imported from `module_utils/identity/keycloak/keycloak.py`,
which is not among the sources here.  The spec describes the comparison as:
attributesChanged is "true iff comparing `desired` to `matched` — excluding
`config` and `parentFlowAlias`, and excluding any desired field left unset —
reveals any differing value"; so inclusion holds iff every key of the desired
dict outside the exclusion list has an equal value in the existing dict.  The
keys of `new_exec` at the call site (line 317) are `providerId`,
`displayName`, `requirement`, `flowAlias`, `authenticationConfig`, `index`
and `level`; the caller always puts `flowAlias` and `authenticationConfig`
(the spec's `parentFlowAlias` and `config`) in the exclusion list, so they
are not compared. -/
def is_struct_included (n : NewExec) (e : ExistingExec) (excl : List String) : Bool :=
  fldIncludedS "providerId" excl n.providerId e.providerId &&
  fldIncludedS "displayName" excl n.displayName e.displayName &&
  fldIncludedS "requirement" excl n.requirement e.requirement &&
  fldIncluded "index" excl n.index e.index &&
  fldIncluded "level" excl n.level e.level

/-- Lines 325-328: the config comparison loop.  For each key of the desired
config dict: if its value `is not None` and the existing dict has an
`authenticationConfig` key, compare against
`existing_exec["authenticationConfig"][key]` — which raises `KeyError` when
the key is absent there.  `config_changed |= ...` evaluates its right-hand
side on every iteration, so a later absent key raises even after a
difference has already been found. -/
def configLoop (cfg : ConfigMap) (e : ExistingExec) : Except String Bool :=
  go false cfg
where
  go : Bool → ConfigMap → Except String Bool
  | acc, [] => .ok acc
  | acc, (k, v) :: rest =>
    match v with
    | none => go acc rest
    | some s =>
      match e.authenticationConfig with
      | none => go acc rest
      | some ec =>
        match lookupStr ec k with
        | none => .error ("KeyError: " ++ k)
        | some t => go (acc || s != t) rest

/-- Lines 265-270. `add_error_line`: one formatted report line. -/
def add_error_line (flow : String) (errMsg : String) (execName : String)
    (subflow expected actual : Option String) : String :=
  "Flow " ++ flow ++
  (match subflow with | some s => ", subflow " ++ s | none => "") ++
  ", Execution: " ++ execName ++ ": " ++ pyCapitalize errMsg ++ " " ++
  (match expected with | some e => " (Expected : " ++ e | none => "") ++
  (match actual with | some a => ", Actual : " ++ a | none => "") ++ "."

/-- Lines 236-240: `hasSameName(other_exec)` inside
`create_authentication_execution`.  The new exec always has both name keys,
so the membership tests on it hold; a fall-through (existing entry with
neither key) returns Python `None`, which is falsy for `filter`. -/
def hasSameName (new_exec : NewExec) (other : ExistingExec) : Bool :=
  if other.providerId.isSome then other.providerId == new_exec.providerId
  else if other.displayName.isSome then other.displayName == new_exec.displayName
  else false

/-- Lines 235-253. `create_authentication_execution`: issue the creation call
(a subflow creation for a flow, else an execution creation with the
`flowAlias`/`authenticationConfig` keys stripped from the payload), then
re-fetch the execution list and take the first entry of the same name —
`[0]` raises `IndexError` when the filter result is empty.  The call is
issued before the re-fetch, so it is returned separately from the
possibly-failing lookup of the created entry. -/
def create_authentication_execution (gw : Gateway) (new_exec : NewExec)
    (flow_alias_parent : String) (isFlow : Bool) :
    GatewayCall × Except String ExistingExec :=
  let call : GatewayCall :=
    if isFlow then .createSubflow new_exec.displayName flow_alias_parent
    else .createExecution
      { new_exec with flowAlias := none, authenticationConfig := none } flow_alias_parent
  (call,
    match (gw.refetch.filter (hasSameName new_exec)).head? with
    | some created => .ok created
    | none => .error "IndexError: list index out of range")

/-- Lines 255-262. `update_authentication_execution(kc, flow_alias_parent,
new_exec, realm)`: the calls the function would issue when invoked with its
declared four parameters.  Note that every call site in the module (lines
340, 359 and 368) passes five positional arguments, so in the module this
function body is never actually entered: the calls raise
`TypeError: update_authentication_execution() takes 4 positional arguments
but 5 were given`. -/
def update_authentication_execution (flow_alias_parent : String) (new_exec : NewExec) :
    List GatewayCall :=
  let updated_exec := { new_exec with flowAlias := none, authenticationConfig := none }
  if new_exec.requirement.isSome then
    [.updateAuthenticationExecutions flow_alias_parent updated_exec]
  else []

/-- The message of the `TypeError` raised at lines 340, 359 and 368, where
`update_authentication_execution` (four parameters, line 255) is called with
five positional arguments. -/
def updCallTypeError : String :=
  "TypeError: update_authentication_execution() takes 4 positional arguments but 5 were given"

/-- Lines 371-375: tail of the unmatched branch, shared by the rename path,
the non-check creation path (never reached there: line 368 raises first) and
the check-mode creation path: set `changed`, append `str(new_exec)` to
`after` and report the missing execution. -/
def afterCreate (aliasName : String) (st : St) (new_exec : NewExec) : St :=
  let st := { st with changed := true, after := st.after ++ strNewExec new_exec ++ "\n" }
  match get_identifier new_exec with
  | .error e => st.abort e
  | .ok nm =>
    { st with errLines := st.errLines ++
        ["Flow " ++ aliasName ++ " is missing execution " ++ nm ++
         (match new_exec.flowAlias with
          | some fa => " in subflow " ++ fa
          | none => "")] }

/-- Lines 344-351: the position check of the matched branch, followed by
`existing_executions[exec_index].clear()`.  The priority call at line 347
computes the delta `exec_index - new_exec_index`; it is guarded by
`not check_mode`, but in non-check mode a position mismatch has already
raised at line 340 (`exec_need_changes` is true), so the call is
unreachable in the module. -/
def matchedPos (aliasName : String) (check : Bool) (st : St) (new_exec : NewExec)
    (eid : String) (new_exec_index exec_index : Int) : St :=
  let st :=
    if exec_index != new_exec_index then
      let st := { st with changed := true }
      let st :=
        if !check then
          { st with trace := st.trace ++
              [.changeExecutionPriority eid (exec_index - new_exec_index)] }
        else st
      match get_identifier new_exec with
      | .error e => st.abort e
      | .ok nm =>
        { st with errLines := st.errLines ++
            [add_error_line aliasName "wrong index" nm none
              (some (toString new_exec_index)) (some (toString exec_index))] }
    else st
  if st.failure.isSome then st
  else { st with existing := st.existing.set exec_index.toNat clearedExec }

/-- Lines 337-343: the attributes check of the matched branch.  When
`exec_need_changes` holds, `changed` is set and — unless in check mode —
line 340 calls `update_authentication_execution` with five positional
arguments, raising `TypeError` before any report line is appended; in check
mode the `wrong requirement` line is appended (reading
`existing_exec["requirement"]`, `KeyError` when absent) and `after` is
overwritten (line 343 assigns, it does not append). -/
def matchedReq (aliasName : String) (check : Bool) (st : St) (new_exec : NewExec)
    (existing_exec : ExistingExec) (eid : String)
    (exec_need_changes : Bool) (new_exec_index exec_index : Int) : St :=
  if exec_need_changes then
    let st := { st with changed := true }
    if !check then st.abort updCallTypeError
    else
      match get_identifier new_exec with
      | .error e => st.abort e
      | .ok nm =>
        match existing_exec.requirement with
        | none => st.abort "KeyError: requirement"
        | some req =>
          let st := { st with errLines := st.errLines ++
              [add_error_line aliasName "wrong requirement" nm none
                new_exec.requirement (some req)] }
          let st := { st with after := strNewExec new_exec }
          matchedPos aliasName check st new_exec eid new_exec_index exec_index
  else matchedPos aliasName check st new_exec eid new_exec_index exec_index

/-- Lines 322-336: the config comparison of the matched branch.  When the
desired config is present, run the comparison loop (a raised `KeyError`
aborts); on a difference, append the existing entry to `before`, push the
config via the Gateway (unless in check mode), append `str(new_exec)` to
`after`, set `changed` and append the `wrong config` report line (reading
the existing entry's config for the "Actual" part). -/
def matchedConfig (aliasName : String) (check : Bool) (st : St) (new_exec : NewExec)
    (existing_exec : ExistingExec) (eid : String) : St :=
  match new_exec.authenticationConfig with
  | none => st
  | some cfg =>
    match configLoop cfg existing_exec with
    | .error e => st.abort e
    | .ok config_changed =>
      if config_changed then
        let st := { st with before := st.before ++ strExistingExec existing_exec }
        let st :=
          if !check then
            { st with trace := st.trace ++ [.addAuthenticationConfig eid cfg] }
          else st
        let st := { st with after := st.after ++ strNewExec new_exec, changed := true }
        match get_identifier new_exec with
        | .error e => st.abort e
        | .ok nm =>
          match existing_exec.authenticationConfig with
          | none => st.abort "KeyError: authenticationConfig"
          | some ecfg =>
            { st with errLines := st.errLines ++
                [add_error_line aliasName "wrong config" nm none
                  (some (strConfigMap cfg)) (some (strExistConfig ecfg))] }
      else st

/-- Line 319: append `str(existing_exec)` to `before` when changes are
needed. -/
def matchedBefore (exec_need_changes : Bool) (existing_exec : ExistingExec)
    (st : St) : St :=
  if exec_need_changes then
    { st with before := st.before ++ strExistingExec existing_exec }
  else st

/-- Lines 309-351: the matched branch.  Computes the exclusion list and
`exec_need_changes`, appends `str(existing_exec)` to `before` when changes
are needed, inserts the existing entry's `id` into `new_exec` (a `KeyError`
when absent), runs the config comparison/push (a raised exception there
ends the pass), then continues with the attributes and position checks. -/
def processMatched (aliasName : String) (check : Bool) (st : St) (new_exec : NewExec)
    (new_exec_index exec_index : Int) : St :=
  let existing_exec := st.existing.getD exec_index.toNat clearedExec
  let excl := ["authenticationConfig", "flowAlias"] ++ noneKeys new_exec
  let exec_need_changes :=
    !(is_struct_included new_exec existing_exec excl) || exec_index != new_exec_index
  let st := matchedBefore exec_need_changes existing_exec st
  match existing_exec.id with
  | none => st.abort "KeyError: id"
  | some eid =>
    let new_exec := { new_exec with id := some eid }
    let st := matchedConfig aliasName check st new_exec existing_exec eid
    if st.failure.isSome then st
    else
      matchedReq aliasName check st new_exec existing_exec eid
        exec_need_changes new_exec_index exec_index

/-- Lines 352-375: the unmatched branch.  A node with a `providerId` or a
`displayName` is renamed (when a subflow declaration finds an existing
subflow at its desired index) or created; the rename and non-check create
paths both call `update_authentication_execution` with five positional
arguments and so raise `TypeError` (lines 359/368), the non-check create
path after having issued the creation call.  A node with neither name key
falls through the `elif` untouched. -/
def processUnmatched (gw : Gateway) (aliasName : String) (check : Bool) (st : St)
    (new_exec : NewExec) (flow_alias_parent : String) (new_exec_index : Int) : St :=
  if new_exec.providerId.isSome || new_exec.displayName.isSome then
    let isFlow := new_exec.displayName.isSome && new_exec.providerId == none
    if isFlow && decide (new_exec_index < intLength st.existing) then
      match pyIndex st.existing new_exec_index with
      | .error e => st.abort e
      | .ok entry =>
        match entry.displayName with
        | none => st.abort "KeyError: displayName"
        | some dn =>
          match entry.id with
          | none => st.abort "KeyError: id"
          | some id_to_update =>
            let new_exec := { new_exec with id := some id_to_update }
            if !check then st.abort updCallTypeError
            else
              match get_identifier new_exec with
              | .error e => st.abort e
              | .ok nm =>
                let st := { st with errLines := st.errLines ++
                    [add_error_line aliasName "wrong flow name" nm none (some nm) (some dn)] }
                let st := { st with existing := pySet st.existing new_exec_index }
                afterCreate aliasName st new_exec
    else if !check then
      let (call, res) := create_authentication_execution gw new_exec flow_alias_parent isFlow
      let st := { st with trace := st.trace ++ [call] }
      match res with
      | .error e => st.abort e
      | .ok created =>
        match created.id with
        | none => st.abort "KeyError: id"
        | some _ => st.abort updCallTypeError
    else afterCreate aliasName st new_exec
  else st

/-- Lines 293-375: the body of the loop over the desired executions, for one
`new_exec` at `enumerate` position `pos`.  A pending failure (a previously
raised exception) skips everything.  The level registration at line 303
first computes `get_identifier(new_exec)` (dict-display keys are evaluated
before values), then looks the parent aliasName up in `levels` — a `KeyError`
when the aliasName has not been recorded. -/
def processNode (gw : Gateway) (aliasName : String) (check : Bool) (st : St)
    (pos : Int) (n : NewExec) : St :=
  if st.failure.isSome then st
  else
    let new_exec_index := n.index.getD pos
    let flow_alias_parent := n.flowAlias.getD aliasName
    match get_identifier n with
    | .error e => st.abort e
    | .ok ident =>
      let lvlRes : Except String Int :=
        match n.flowAlias with
        | none => .ok 0
        | some a =>
          match lookupAssoc st.levels a with
          | some pl => .ok (pl + 1)
          | none => .error ("KeyError: " ++ a)
      match lvlRes with
      | .error e => st.abort e
      | .ok lvl =>
        let st := { st with levels := updateAssoc st.levels ident lvl }
        let new_exec := { n with level := some lvl }
        match find_exec_in_executions new_exec st.existing with
        | .error e => st.abort e
        | .ok exec_index =>
          if exec_index != -1 then
            processMatched aliasName check st new_exec new_exec_index exec_index
          else
            processUnmatched gw aliasName check st new_exec flow_alias_parent new_exec_index

/-- The `enumerate` loop at line 293, with an explicit running index. -/
def runExecs (gw : Gateway) (aliasName : String) (check : Bool) :
    St → Int → List NewExec → St
  | st, _, [] => st
  | st, i, n :: rest => runExecs gw aliasName check (processNode gw aliasName check st i n) (i + 1) rest

/-- Lines 378-384: one iteration of the orphan-removal loop.  A non-cleared
entry sets `changed`, is appended to `before`, is reported by its
`displayName` and `level` (direct indexing, `KeyError` when either key is
absent) and — unless in check mode — is deleted by its `id`. -/
def orphanStep (aliasName : String) (check : Bool) (st : St) (e : ExistingExec) : St :=
  if st.failure.isSome then st
  else if e == clearedExec then st
  else
    let st := { st with changed := true, before := st.before ++ strExistingExec e ++ "\n" }
    match e.displayName with
    | none => st.abort "KeyError: displayName"
    | some dn =>
      match e.level with
      | none => st.abort "KeyError: level"
      | some lv =>
        let st := { st with errLines := st.errLines ++
            ["Flow " ++ aliasName ++ " has extra execution " ++ dn ++
             " at depth level " ++ toString lv] }
        if check then st
        else
          match e.id with
          | none => st.abort "KeyError: id"
          | some i => { st with trace := st.trace ++ [.deleteAuthenticationExecution i] }

/-- Lines 377-384: the orphan-removal loop over the working copy. -/
def remove_extra_executions (aliasName : String) (check : Bool) (st : St) : St :=
  st.existing.foldl (orphanStep aliasName check) st

/-- The `config` argument of `create_or_update_executions`: the flow aliasName
plus the `authenticationExecutions` key, which may be absent (outer `none`,
line 289), present with value `None` (inner `none`, line 293) or a list. -/
structure FlowConfig where
  aliasName : String
  authenticationExecutions : Option (Option (List NewExec)) := none

/-- Lines 272-389. `create_or_update_executions(kc, config, check_mode,
realm)`: fetch the existing executions, loop over the desired ones (levels,
matching, classification, mutation), then remove the orphans.  Returns the
final local state; `failure = some msg` means an exception reached the
`except` clause and the module failed with `fail_json`. -/
def create_or_update_executions (gw : Gateway) (config : FlowConfig)
    (check_mode : Bool) : St :=
  match config.authenticationExecutions with
  | none => {}
  | some execsVal =>
    let nodes := execsVal.getD []
    let st := runExecs gw config.aliasName check_mode { existing := gw.initial } 0 nodes
    remove_extra_executions config.aliasName check_mode st

/-! ## Basic lemmas: a raised exception stops the pass -/

/-- A node is skipped entirely once a failure is pending. -/
theorem processNode_of_failure (gw : Gateway) (a : String) (cm : Bool) (st : St)
    (pos : Int) (n : NewExec) (h : st.failure.isSome) :
    processNode gw a cm st pos n = st := by
  simp [processNode, h]

/-- The rest of the desired-execution loop does nothing once a failure is
pending. -/
theorem runExecs_of_failure (gw : Gateway) (a : String) (cm : Bool) :
    ∀ (l : List NewExec) (st : St) (i : Int), st.failure.isSome →
      runExecs gw a cm st i l = st := by
  intro l
  induction l with
  | nil => intro st i h; rfl
  | cons n rest ih =>
    intro st i h
    rw [runExecs, processNode_of_failure gw a cm st i n h, ih st (i + 1) h]

/-- An orphan entry is skipped once a failure is pending. -/
theorem orphanStep_of_failure (a : String) (cm : Bool) (st : St) (e : ExistingExec)
    (h : st.failure.isSome) : orphanStep a cm st e = st := by
  simp [orphanStep, h]

/-- The orphan-removal loop does nothing once a failure is pending. -/
theorem remove_extra_of_failure (a : String) (cm : Bool) (st : St)
    (h : st.failure.isSome) : remove_extra_executions a cm st = st := by
  unfold remove_extra_executions
  generalize st.existing = l
  induction l generalizing st with
  | nil => rfl
  | cons e rest ih =>
    rw [List.foldl_cons, orphanStep_of_failure a cm st e h, ih st h]

/-! ## C4: the attributes-update path -/

/-- C4 failing input: one desired execution whose `requirement` differs from
the matched existing entry's, reconciled with `check_mode = False`. -/
def c4Node : NewExec := { providerId := some "p1", requirement := some "REQUIRED" }

/-- The existing entry matched by `c4Node` (same provider, same level), with
a different requirement. -/
def c4Exist : ExistingExec :=
  { id := some "idX", providerId := some "p1", displayName := some "P One",
    requirement := some "ALTERNATIVE", index := some 0, level := some 0 }

/-- Gateway snapshot for the C4 scenario. -/
def c4Gw : Gateway := { initial := [c4Exist] }

/-- Flow config for the C4 scenario. -/
def c4Cfg : FlowConfig :=
  { aliasName := "f", authenticationExecutions := some (some [c4Node]) }

/-- C4: the claim says that for a matched pair whose comparison (excluding
config, parentFlowAlias and unset desired fields) reveals a differing value,
with `dryRun = false`, the reconciler pushes the updated
requirement/attributes through the Gateway without raising, sets
`changed = true` and appends a report line.  The code cannot do this: line
340 calls `update_authentication_execution` with five positional arguments
while the function (line 255) takes four, so the call raises `TypeError`
before any Gateway update and before the report line; the module fails.  On
the concrete failing input the run aborts with the `TypeError`, issues no
Gateway call at all and appends no report line (`changed` has been set just
before the raise); the last conjunct shows that the four-parameter function,
had it been called as declared, would have issued exactly the intended
attributes-update call. -/
theorem c4_attributes_update_raises :
    (create_or_update_executions c4Gw c4Cfg false).failure = some updCallTypeError ∧
    (create_or_update_executions c4Gw c4Cfg false).trace = [] ∧
    (create_or_update_executions c4Gw c4Cfg false).errLines = [] ∧
    (create_or_update_executions c4Gw c4Cfg false).changed = true ∧
    update_authentication_execution "f" { c4Node with level := some 0, id := some "idX" } =
      [.updateAuthenticationExecutions "f"
        { c4Node with level := some 0, id := some "idX" }] := by
  decide

/-! ## C6: the reposition path -/

/-- C6 scenario: the desired node matches the existing entry at list index 2
while its desired index is 0. -/
def c6Node : NewExec := { providerId := some "px", requirement := some "REQUIRED" }

/-- First non-matching existing entry of the C6 scenario. -/
def c6Other1 : ExistingExec :=
  { id := some "id1", providerId := some "o1", displayName := some "O1",
    requirement := some "REQUIRED", index := some 0, level := some 0 }

/-- Second non-matching existing entry of the C6 scenario. -/
def c6Other2 : ExistingExec :=
  { id := some "id2", providerId := some "o2", displayName := some "O2",
    requirement := some "REQUIRED", index := some 1, level := some 0 }

/-- The entry matched by `c6Node`, at existing position 2. -/
def c6Target : ExistingExec :=
  { id := some "idT", providerId := some "px", displayName := some "PX",
    requirement := some "REQUIRED", index := some 2, level := some 0 }

/-- Gateway snapshot for the C6 scenario. -/
def c6Gw : Gateway := { initial := [c6Other1, c6Other2, c6Target] }

/-- Flow config for the C6 scenario. -/
def c6Cfg : FlowConfig :=
  { aliasName := "f", authenticationExecutions := some (some [c6Node]) }

/-- C6: the claim says a matched pair whose existing position differs from
the desired index leads to a relative-priority Gateway call carrying the
delta `existingPriority - desiredIndex`.  The delta computed at line 347 is
indeed `exec_index - new_exec_index` (2 - 0 = 2 here), but the call is
unreachable: a position mismatch makes `exec_need_changes` true (line 317),
so in non-check mode line 340 raises the `TypeError` (five arguments to the
four-parameter `update_authentication_execution`) before line 347 is ever
reached, and in check mode the call is skipped by its own `not check_mode`
guard.  Concretely: the non-check run fails with the `TypeError` and an
empty call trace, and the check-mode run reports the position mismatch
(expected 0, actual 2) without any call. -/
theorem c6_reposition_call_unreachable :
    (create_or_update_executions c6Gw c6Cfg false).failure = some updCallTypeError ∧
    (create_or_update_executions c6Gw c6Cfg false).trace = [] ∧
    (create_or_update_executions c6Gw c6Cfg true).errLines.contains
      "Flow f, Execution: px: Wrong index  (Expected : 0, Actual : 2." = true ∧
    (create_or_update_executions c6Gw c6Cfg true).trace = [] ∧
    (create_or_update_executions c6Gw c6Cfg true).failure = none := by
  decide

/-! ## C10: a desired node with no identity -/

/-- C10 input: a desired execution with neither `providerId` nor
`displayName`. -/
def c10Cfg : FlowConfig :=
  { aliasName := "f",
    authenticationExecutions := some (some [{ requirement := some "REQUIRED" }]) }

/-- C10 counterexample: the claim says such a node is a silent defensive
no-op with no error; in fact the pass fails, in check mode and in normal
mode alike, because line 303 calls `get_identifier` on the node before any
matching, and `get_identifier` raises. -/
theorem c10_counterexample :
    (create_or_update_executions {} c10Cfg true).failure = some "KeyError: exec" ∧
    (create_or_update_executions {} c10Cfg false).failure = some "KeyError: exec" := by
  decide

/-- C10 amended: a desired node with neither `providerId` nor `displayName`
makes the whole pass fail with the exception raised by `get_identifier`
(before matching is even attempted); it is not silently skipped.  The `elif`
at line 352 that would have let such a node fall through unprocessed is dead
for this case, because line 303 raises first. -/
theorem c10_no_identity_aborts (gw : Gateway) (a : String) (cm : Bool) (st : St)
    (pos : Int) (n : NewExec) (hf : st.failure = none)
    (hp : n.providerId = none) (hd : n.displayName = none) :
    processNode gw a cm st pos n = st.abort "KeyError: exec" := by
  simp [processNode, get_identifier, hp, hd, hf]

/-- Witness for C10: the amended theorem applied to a concrete node with
neither name key. -/
theorem c10_no_identity_aborts_witness :
    processNode {} "f" true {} 0 { requirement := some "REQUIRED" } =
      St.abort {} "KeyError: exec" :=
  c10_no_identity_aborts {} "f" true {} 0 { requirement := some "REQUIRED" } rfl rfl rfl

/-! ## C3: unresolved parent -/

/-- C3 counterexample, first node: matches the existing entry but needs a
config push (a mutating Gateway call). -/
def c3Node1 : NewExec :=
  { providerId := some "p1", requirement := some "REQUIRED",
    authenticationConfig := some [("a", some "2")] }

/-- C3 counterexample, second node: its `flowAlias` refers to `missing`,
which no earlier node's identifier provides. -/
def c3Node2 : NewExec :=
  { providerId := some "p2", requirement := some "REQUIRED",
    flowAlias := some "missing" }

/-- The existing entry matched by `c3Node1`, holding a different config. -/
def c3Exist : ExistingExec :=
  { id := some "id1", providerId := some "p1", displayName := some "P1",
    requirement := some "REQUIRED", index := some 0, level := some 0,
    authenticationConfig := some [("a", "1")] }

/-- Gateway snapshot for the C3 scenario. -/
def c3Gw : Gateway := { initial := [c3Exist] }

/-- Flow config for the C3 scenario. -/
def c3Cfg : FlowConfig :=
  { aliasName := "f", authenticationExecutions := some (some [c3Node1, c3Node2]) }

/-- C3 counterexample: the claim says a desired list containing a node with
an unresolvable `parentFlowAlias` fails before any mutating Gateway call is
issued.  On this input the pass does fail with the unresolved-parent
`KeyError`, but only when the offending second node is reached — by then the
first node's config push has already been issued, so a mutating call
precedes the failure. -/
theorem c3_counterexample :
    (create_or_update_executions c3Gw c3Cfg false).failure = some "KeyError: missing" ∧
    (create_or_update_executions c3Gw c3Cfg false).trace =
      [.addAuthenticationConfig "id1" [("a", some "2")]] := by
  decide

/-- C3 amended: level assignment is interleaved with mutation (one loop,
lines 293-375), not an upfront pass.  A node whose `parentFlowAlias` is not
a previously recorded identifier aborts the pass with `KeyError` at the
moment that node is processed, and nothing afterwards (later nodes, orphan
removal) is attempted; but mutating Gateway calls already issued for earlier
nodes are not prevented or undone. -/
theorem c3_unresolved_parent_aborts (gw : Gateway) (a : String) (cm : Bool)
    (st : St) (pos : Int) (n : NewExec) (pa i0 : String)
    (hf : st.failure = none) (hid : get_identifier n = .ok i0)
    (hpa : n.flowAlias = some pa) (hlk : lookupAssoc st.levels pa = none) :
    processNode gw a cm st pos n = st.abort ("KeyError: " ++ pa) ∧
    (∀ st2 : St, st2.failure.isSome → ∀ i l, runExecs gw a cm st2 i l = st2) ∧
    (∀ st2 : St, st2.failure.isSome → remove_extra_executions a cm st2 = st2) := by
  refine ⟨?_, fun st2 h i l => runExecs_of_failure gw a cm l st2 i h,
    fun st2 h => remove_extra_of_failure a cm st2 h⟩
  simp [processNode, hf, hid, hpa, hlk]

/-- Witness for C3: the amended theorem applied to the concrete offending
node of the counterexample scenario, from a fresh state. -/
theorem c3_unresolved_parent_aborts_witness :
    processNode c3Gw "f" false {} 1 c3Node2 = St.abort {} "KeyError: missing" :=
  (c3_unresolved_parent_aborts c3Gw "f" false {} 1 c3Node2 "missing" "p2"
    rfl rfl rfl rfl).1

/-! ## C8: orphan deletion -/

/-- C8 scenario: existing entries X and Y, desired list declaring only X. -/
def c8NodeX : NewExec := { providerId := some "pX", requirement := some "REQUIRED" }

/-- Existing entry X, matched by the desired node. -/
def c8ExistX : ExistingExec :=
  { id := some "idX", providerId := some "pX", displayName := some "X",
    requirement := some "REQUIRED", index := some 0, level := some 0 }

/-- Existing entry Y, declared by no desired node. -/
def c8ExistY : ExistingExec :=
  { id := some "idY", providerId := some "pY", displayName := some "Y",
    requirement := some "REQUIRED", index := some 1, level := some 0 }

/-- Gateway snapshot for the C8 scenario. -/
def c8Gw : Gateway := { initial := [c8ExistX, c8ExistY] }

/-- Flow config for the C8 scenario. -/
def c8Cfg : FlowConfig :=
  { aliasName := "f", authenticationExecutions := some (some [c8NodeX]) }

/-- C8: orphan deletion.  First conjunct (general): for every existing entry
not consumed (not cleared) with its `displayName`, `level` and `id` keys
present, the orphan loop body sets `changed`, appends the entry to `before`,
appends the report line naming the extra execution and its depth level, and
— unless in check mode — issues the delete call by remote id.  Second
conjunct: on the concrete scenario with existing `[X, Y]` and a desired list
declaring only `X`, the full reconciliation succeeds with `changed = true`,
the single report line for `Y`, and exactly the delete call for `Y`. -/
theorem c8_orphan_deletion :
    (∀ (a : String) (cm : Bool) (st : St) (e : ExistingExec)
      (dn : String) (lv : Int) (eid : String),
      st.failure = none → e ≠ clearedExec → e.displayName = some dn →
      e.level = some lv → e.id = some eid →
      orphanStep a cm st e =
        { st with
          changed := true,
          before := st.before ++ strExistingExec e ++ "\n",
          errLines := st.errLines ++
            ["Flow " ++ a ++ " has extra execution " ++ dn ++
             " at depth level " ++ toString lv],
          trace := st.trace ++
            (if cm then [] else [.deleteAuthenticationExecution eid]) }) ∧
    ((create_or_update_executions c8Gw c8Cfg false).changed = true ∧
     (create_or_update_executions c8Gw c8Cfg false).errLines =
       ["Flow f has extra execution Y at depth level 0"] ∧
     (create_or_update_executions c8Gw c8Cfg false).trace =
       [.deleteAuthenticationExecution "idY"] ∧
     (create_or_update_executions c8Gw c8Cfg false).failure = none) := by
  constructor
  · intro a cm st e dn lv eid hf hne hdn hlv hid
    have hne2 : (e == clearedExec) = false := by
      simpa using hne
    cases cm <;> simp [orphanStep, hf, hne2, hdn, hlv, hid]
  · decide

/-- Witness for C8: the general conjunct applied to the concrete orphan Y
from a fresh state, in non-check mode. -/
theorem c8_orphan_deletion_witness :
    orphanStep "f" false {} c8ExistY =
      { ({} : St) with
        changed := true,
        before := strExistingExec c8ExistY ++ "\n",
        errLines := ["Flow f has extra execution Y at depth level 0"],
        trace := [.deleteAuthenticationExecution "idY"] } := by
  have h := c8_orphan_deletion.1 "f" false {} c8ExistY "Y" 0 "idY"
    rfl (by decide) rfl rfl rfl
  simpa using h

/-! ## C5: config difference detection -/

/-- The config difference the loop actually computes on the keys it can
compare: some declared (non-None) key whose value differs from the existing
config's value at that key. -/
def cfgDiffB (cfg : ConfigMap) (ec : ExistConfig) : Bool :=
  cfg.any (fun p => match p.2, lookupStr ec p.1 with
    | some v, some t => v != t
    | _, _ => false)

/-- When the matched entry has no `authenticationConfig` key, the loop
compares nothing and leaves the accumulator untouched. -/
theorem configLoop_go_no_existing (e : ExistingExec)
    (he : e.authenticationConfig = none) :
    ∀ (c : ConfigMap) (acc : Bool), configLoop.go e acc c = .ok acc := by
  intro c
  induction c with
  | nil => intro acc; rfl
  | cons p rest ih =>
    intro acc
    obtain ⟨k, v⟩ := p
    cases v with
    | none => simpa [configLoop.go] using ih acc
    | some s => simpa [configLoop.go, he] using ih acc

/-- When every declared key is present in the existing config, the loop
returns the accumulated disjunction of the value differences. -/
theorem configLoop_go_all_present (e : ExistingExec) (ec : ExistConfig)
    (he : e.authenticationConfig = some ec) :
    ∀ (c : ConfigMap), (∀ k v, (k, some v) ∈ c → (lookupStr ec k).isSome) →
      ∀ acc, configLoop.go e acc c = .ok (acc || cfgDiffB c ec) := by
  intro c
  induction c with
  | nil => intro _ acc; simp [configLoop.go, cfgDiffB]
  | cons p rest ih =>
    intro hall acc
    obtain ⟨k, v⟩ := p
    cases v with
    | none =>
      have := ih (fun k2 v2 h2 => hall k2 v2 (List.mem_cons_of_mem _ h2)) acc
      simpa [configLoop.go, cfgDiffB] using this
    | some s =>
      have hk : (lookupStr ec k).isSome := hall k s (List.mem_cons_self _ _)
      obtain ⟨t, ht⟩ := Option.isSome_iff_exists.mp hk
      have := ih (fun k2 v2 h2 => hall k2 v2 (List.mem_cons_of_mem _ h2)) (acc || (s != t))
      simp only [configLoop.go, he, ht, this, cfgDiffB, List.any_cons]
      rw [Bool.or_assoc]

/-- When some declared key is absent from the existing config, the loop
raises `KeyError` (even if a difference was already found). -/
theorem configLoop_go_missing_key (e : ExistingExec) (ec : ExistConfig)
    (he : e.authenticationConfig = some ec) :
    ∀ (c : ConfigMap), (∃ k v, (k, some v) ∈ c ∧ lookupStr ec k = none) →
      ∀ acc, ∃ m, configLoop.go e acc c = .error m := by
  intro c
  induction c with
  | nil =>
    rintro ⟨k, v, hin, -⟩
    cases hin
  | cons p rest ih =>
    rintro ⟨k, v, hin, hnone⟩ acc
    obtain ⟨k2, v2⟩ := p
    cases v2 with
    | none =>
      have hmem : (k, some v) ∈ rest := by
        rcases List.mem_cons.mp hin with heq | hmem
        · simp at heq
        · exact hmem
      have := ih ⟨k, v, hmem, hnone⟩ acc
      simpa [configLoop.go] using this
    | some s =>
      cases hls : lookupStr ec k2 with
      | none => exact ⟨"KeyError: " ++ k2, by simp [configLoop.go, he, hls]⟩
      | some t =>
        have hmem : (k, some v) ∈ rest := by
          rcases List.mem_cons.mp hin with heq | hmem
          · exfalso
            simp only [Prod.mk.injEq, Option.some.injEq] at heq
            rw [heq.1] at hnone
            rw [hls] at hnone
            cases hnone
          · exact hmem
        have := ih ⟨k, v, hmem, hnone⟩ (acc || (s != t))
        simpa [configLoop.go, he, hls] using this

/-- The computed config difference holds exactly when some declared key's
value differs from the existing config's value at that key. -/
theorem cfgDiffB_true_iff (cfg : ConfigMap) (ec : ExistConfig) :
    cfgDiffB cfg ec = true ↔
      ∃ k v t, (k, some v) ∈ cfg ∧ lookupStr ec k = some t ∧ v ≠ t := by
  unfold cfgDiffB
  rw [List.any_eq_true]
  constructor
  · rintro ⟨⟨k, v⟩, hin, hp⟩
    cases v with
    | none => simp at hp
    | some s =>
      cases hls : lookupStr ec k with
      | none => rw [hls] at hp; simp at hp
      | some t =>
        rw [hls] at hp
        simp only [bne_iff_ne, ne_eq] at hp
        exact ⟨k, s, t, hin, hls, hp⟩
  · rintro ⟨k, v, t, hin, hls, hne⟩
    exact ⟨(k, some v), hin, by simp [hls, hne]⟩

/-- C5 counterexample input: desired config declaring keys `a` and `b`. -/
def c5Node : NewExec :=
  { providerId := some "p1", requirement := some "REQUIRED",
    authenticationConfig := some [("a", some "2"), ("b", some "3")] }

/-- The matched existing entry, whose config holds only key `a`. -/
def c5Exist : ExistingExec :=
  { id := some "id1", providerId := some "p1", displayName := some "P1",
    requirement := some "REQUIRED", index := some 0, level := some 0,
    authenticationConfig := some [("a", "1")] }

/-- Gateway snapshot for the C5 counterexample. -/
def c5Gw : Gateway := { initial := [c5Exist] }

/-- Flow config for the C5 counterexample. -/
def c5Cfg : FlowConfig :=
  { aliasName := "f", authenticationExecutions := some (some [c5Node]) }

/-- C5 counterexample: the claim's own example — existing config `a=1`
against desired config `a=2, b=3` — does not yield `configChanged = true`:
the comparison loop raises `KeyError: b` when it reaches the declared key
absent from the matched config (line 328 indexes the existing config dict
directly), so the whole pass fails and no config push is issued. -/
theorem c5_counterexample :
    configLoop [("a", some "2"), ("b", some "3")] c5Exist = .error "KeyError: b" ∧
    (create_or_update_executions c5Gw c5Cfg false).failure = some "KeyError: b" ∧
    (create_or_update_executions c5Gw c5Cfg false).trace = [] :=
  ⟨rfl, rfl, rfl⟩

/-- C5 identical-config input: desired and existing configs agree. -/
def c5IdNode : NewExec :=
  { providerId := some "p1", requirement := some "REQUIRED",
    authenticationConfig := some [("a", some "1")] }

/-- The matched existing entry with the identical config. -/
def c5IdExist : ExistingExec :=
  { id := some "id1", providerId := some "p1", displayName := some "P1",
    requirement := some "REQUIRED", index := some 0, level := some 0,
    authenticationConfig := some [("a", "1")] }

/-- Gateway snapshot for the identical-config scenario. -/
def c5IdGw : Gateway := { initial := [c5IdExist] }

/-- Flow config for the identical-config scenario. -/
def c5IdCfg : FlowConfig :=
  { aliasName := "f", authenticationExecutions := some (some [c5IdNode]) }

/-- C5 amended: the comparison at lines 324-328 only treats a declared key's
differing value as a config change when the key is present in the matched
entry's config.  Conjuncts: (1) if the matched entry has no
`authenticationConfig` key at all, `configChanged` is false (no push), even
though every declared key is "absent"; (2) when every declared (non-None)
key is present there, `configChanged` is true iff some declared value
differs; (3) a declared (non-None) key absent from the matched config makes
the comparison raise (aborting the whole pass) instead of counting as a
change; (4) identical configs: the full run reports no change and pushes
nothing. -/
theorem c5_config_diff_amended :
    (∀ (cfg : ConfigMap) (e : ExistingExec), e.authenticationConfig = none →
       configLoop cfg e = .ok false) ∧
    (∀ (cfg : ConfigMap) (e : ExistingExec) (ec : ExistConfig),
       e.authenticationConfig = some ec →
       (∀ k v, (k, some v) ∈ cfg → (lookupStr ec k).isSome) →
       (configLoop cfg e = .ok true ↔
         ∃ k v t, (k, some v) ∈ cfg ∧ lookupStr ec k = some t ∧ v ≠ t)) ∧
    (∀ (cfg : ConfigMap) (e : ExistingExec) (ec : ExistConfig),
       e.authenticationConfig = some ec →
       (∃ k v, (k, some v) ∈ cfg ∧ lookupStr ec k = none) →
       ∃ m, configLoop cfg e = .error m) ∧
    ((create_or_update_executions c5IdGw c5IdCfg false).changed = false ∧
     (create_or_update_executions c5IdGw c5IdCfg false).trace = [] ∧
     (create_or_update_executions c5IdGw c5IdCfg false).failure = none) := by
  refine ⟨fun cfg e he => configLoop_go_no_existing e he cfg false,
    fun cfg e ec he hall => ?_,
    fun cfg e ec he hex => configLoop_go_missing_key e ec he cfg hex false,
    by decide⟩
  rw [show configLoop cfg e = configLoop.go e false cfg from rfl,
    configLoop_go_all_present e ec he cfg hall false]
  simp only [Bool.false_or, Except.ok.injEq]
  exact cfgDiffB_true_iff cfg ec

/-- Witness for C5: the characterisation applied to a concrete matched pair
whose single declared key differs (`a=2` declared against `a=1` existing). -/
theorem c5_config_diff_amended_witness :
    configLoop [("a", some "2")] c5IdExist = .ok true ↔
      ∃ k v t, (k, some v) ∈ [("a", some "2")] ∧
        lookupStr [("a", "1")] k = some t ∧ v ≠ t :=
  c5_config_diff_amended.2.1 [("a", some "2")] c5IdExist [("a", "1")] rfl
    (by
      intro k v h
      simp only [List.mem_singleton, Prod.mk.injEq, Option.some.injEq] at h
      obtain ⟨rfl, rfl⟩ := h
      rfl)

/-! ## C2: the matcher -/

/-- The identity rule as the spec states it for claim C2: the levels are
equal, and the provider kinds are both present and equal or the display
names are both present and equal. -/
def identityRuleB (s : NewExec) (e : ExistingExec) : Bool :=
  (s.level.isSome && e.level == s.level) &&
  ((s.providerId.isSome && e.providerId == s.providerId) ||
   (s.displayName.isSome && e.displayName == s.displayName))

/-- Presence of either side is interchangeable once the values compare
equal. -/
theorem isSome_beq_comm (o1 o2 : Option String) :
    (o1.isSome && o1 == o2) = (o2.isSome && o1 == o2) := by
  cases o1 <;> cases o2 <;> simp

/-- The source's pre-level match condition agrees with the name disjunct of
the spec's identity rule. -/
theorem identPreMatch_eq_nameRule (e : ExistingExec) (s : NewExec) :
    identPreMatch e s =
      ((s.providerId.isSome && e.providerId == s.providerId) ||
       (s.displayName.isSome && e.displayName == s.displayName)) := by
  unfold identPreMatch
  rw [isSome_beq_comm e.providerId s.providerId,
    isSome_beq_comm e.displayName s.displayName]

/-- The matcher loop returns `-1` exactly when no entry satisfies the
identity rule, and otherwise the absolute index of the first entry that
does. -/
theorem findExecGo_spec (searched : NewExec) (ls : Int)
    (hs : searched.level = some ls) :
    ∀ (l : List ExistingExec) (i : Nat),
      (∀ e ∈ l, identPreMatch e searched = true → e.level.isSome) →
      (findExecGo searched (Int.ofNat i) l = .ok (-1) ∧
        ∀ e ∈ l, identityRuleB searched e = false) ∨
      (∃ (k : Nat) (e : ExistingExec),
        findExecGo searched (Int.ofNat i) l = .ok (Int.ofNat (i + k)) ∧
        l[k]? = some e ∧ identityRuleB searched e = true ∧
        ∀ j, j < k → ∀ e2, l[j]? = some e2 → identityRuleB searched e2 = false) := by
  intro l
  induction l with
  | nil => intro i _; exact Or.inl ⟨rfl, by simp⟩
  | cons e rest ih =>
    intro i hw
    have hwrest : ∀ e2 ∈ rest, identPreMatch e2 searched = true → e2.level.isSome :=
      fun e2 h2 => hw e2 (List.mem_cons_of_mem _ h2)
    by_cases hpm : identPreMatch e searched = true
    · obtain ⟨le, hle⟩ := Option.isSome_iff_exists.mp (hw e (List.mem_cons_self _ _) hpm)
      by_cases heq : le = ls
      · refine Or.inr ⟨0, e, ?_, by simp, ?_, by omega⟩
        · simp [findExecGo, hpm, hle, hs, heq]
        · unfold identityRuleB
          rw [← identPreMatch_eq_nameRule, hpm, hs, hle, heq]
          simp
      · have hfalse : identityRuleB searched e = false := by
          unfold identityRuleB
          rw [hs, hle]
          simp [heq]
        have hstep : findExecGo searched (Int.ofNat i) (e :: rest) =
            findExecGo searched (Int.ofNat (i + 1)) rest := by
          simp only [findExecGo, hpm, hle, hs]
          have : (le == ls) = false := by simp [heq]
          simp [this, Int.ofNat_succ]
        rcases ih (i + 1) hwrest with ⟨hfind, hall⟩ | ⟨k, e2, hfind, hget, htrue, hfirst⟩
        · refine Or.inl ⟨by rw [hstep, hfind], ?_⟩
          intro e2 h2
          rcases List.mem_cons.mp h2 with rfl | h2
          · exact hfalse
          · exact hall e2 h2
        · refine Or.inr ⟨k + 1, e2, ?_, by simpa using hget, htrue, ?_⟩
          · rw [hstep, hfind]
            have harith : i + 1 + k = i + (k + 1) := by omega
            rw [harith]
          · intro j hj e3 hget3
            cases j with
            | zero =>
              simp only [List.getElem?_cons_zero, Option.some.injEq] at hget3
              rw [← hget3]
              exact hfalse
            | succ j2 =>
              simp only [List.getElem?_cons_succ] at hget3
              exact hfirst j2 (by omega) e3 hget3
    · have hpmf : identPreMatch e searched = false := by
        cases h : identPreMatch e searched
        · rfl
        · exact absurd h hpm
      have hfalse : identityRuleB searched e = false := by
        unfold identityRuleB
        rw [← identPreMatch_eq_nameRule, hpmf]
        simp
      have hstep : findExecGo searched (Int.ofNat i) (e :: rest) =
          findExecGo searched (Int.ofNat (i + 1)) rest := by
        simp [findExecGo, hpmf, Int.ofNat_succ]
      rcases ih (i + 1) hwrest with ⟨hfind, hall⟩ | ⟨k, e2, hfind, hget, htrue, hfirst⟩
      · refine Or.inl ⟨by rw [hstep, hfind], ?_⟩
        intro e2 h2
        rcases List.mem_cons.mp h2 with rfl | h2
        · exact hfalse
        · exact hall e2 h2
      · refine Or.inr ⟨k + 1, e2, ?_, by simpa using hget, htrue, ?_⟩
        · rw [hstep, hfind]
          have harith : i + 1 + k = i + (k + 1) := by omega
          rw [harith]
        · intro j hj e3 hget3
          cases j with
          | zero =>
            simp only [List.getElem?_cons_zero, Option.some.injEq] at hget3
            rw [← hget3]
            exact hfalse
          | succ j2 =>
            simp only [List.getElem?_cons_succ] at hget3
            exact hfirst j2 (by omega) e3 hget3

/-- C2: `find_exec_in_executions` returns the first index (in list order) of
an existing entry satisfying the identity rule — level equal, and provider
kinds both present and equal or display names both present and equal — and
`-1` when no entry satisfies it.  (A provider-kind match at a different
level fails the `level` conjunct of `identityRuleB`, so it is not a match.)
The hypotheses say the desired node's `level` key has been set (line 304
always sets it before the call) and that any existing entry passing the name
test carries a `level` key (otherwise line 223 raises `KeyError`). -/
theorem c2_matcher_first_index (searched : NewExec) (execs : List ExistingExec)
    (ls : Int) (hs : searched.level = some ls)
    (hw : ∀ e ∈ execs, identPreMatch e searched = true → e.level.isSome) :
    (find_exec_in_executions searched execs = .ok (-1) ∧
      ∀ e ∈ execs, identityRuleB searched e = false) ∨
    (∃ (k : Nat) (e : ExistingExec),
      find_exec_in_executions searched execs = .ok (Int.ofNat k) ∧
      execs[k]? = some e ∧ identityRuleB searched e = true ∧
      ∀ j, j < k → ∀ e2, execs[j]? = some e2 → identityRuleB searched e2 = false) := by
  have := findExecGo_spec searched ls hs execs 0 hw
  simpa [find_exec_in_executions] using this

/-- Witness for C2: a desired node (`providerId = px`, level 0) against an
existing list whose first entry has the same provider kind at level 1 and
whose second entry is the genuine level-0 match: the theorem applies, and
its conclusion picks index 1, not the same-provider entry at the wrong
level. -/
theorem c2_matcher_first_index_witness :
    (find_exec_in_executions { providerId := some "px", level := some 0 }
        [{ providerId := some "px", level := some 1 },
         { providerId := some "px", level := some 0, id := some "id2" }] = .ok (-1) ∧
      ∀ e ∈ [({ providerId := some "px", level := some 1 } : ExistingExec),
             { providerId := some "px", level := some 0, id := some "id2" }],
        identityRuleB { providerId := some "px", level := some 0 } e = false) ∨
    (∃ (k : Nat) (e : ExistingExec),
      find_exec_in_executions { providerId := some "px", level := some 0 }
        [{ providerId := some "px", level := some 1 },
         { providerId := some "px", level := some 0, id := some "id2" }] = .ok (Int.ofNat k) ∧
      [({ providerId := some "px", level := some 1 } : ExistingExec),
       { providerId := some "px", level := some 0, id := some "id2" }][k]? = some e ∧
      identityRuleB { providerId := some "px", level := some 0 } e = true ∧
      ∀ j, j < k →
        ∀ e2, [({ providerId := some "px", level := some 1 } : ExistingExec),
               { providerId := some "px", level := some 0, id := some "id2" }][j]? = some e2 →
          identityRuleB { providerId := some "px", level := some 0 } e2 = false) :=
  c2_matcher_first_index { providerId := some "px", level := some 0 }
    [{ providerId := some "px", level := some 1 },
     { providerId := some "px", level := some 0, id := some "id2" }] 0 rfl
    (by decide)

/-! ## C7: level assignment -/

/-- The unmatched-branch tail never touches the `levels` dict. -/
theorem afterCreate_levels (a : String) (st : St) (n : NewExec) :
    (afterCreate a st n).levels = st.levels := by
  unfold afterCreate
  (repeat' split) <;> simp [St.abort, apply_ite St.levels]

/-- The position check never touches the `levels` dict. -/
theorem matchedPos_levels (a : String) (cm : Bool) (st : St) (n : NewExec)
    (eid : String) (ni ei : Int) :
    (matchedPos a cm st n eid ni ei).levels = st.levels := by
  unfold matchedPos
  (repeat' split) <;> simp [St.abort, apply_ite St.levels]

/-- The attributes check never touches the `levels` dict. -/
theorem matchedReq_levels (a : String) (cm : Bool) (st : St) (n : NewExec)
    (ee : ExistingExec) (eid : String) (enc : Bool) (ni ei : Int) :
    (matchedReq a cm st n ee eid enc ni ei).levels = st.levels := by
  unfold matchedReq
  (repeat' split) <;> simp [St.abort, matchedPos_levels, apply_ite St.levels]

/-- The before-append stage only touches `before`. -/
theorem matchedBefore_levels (enc : Bool) (ee : ExistingExec) (st : St) :
    (matchedBefore enc ee st).levels = st.levels := by
  unfold matchedBefore
  split <;> rfl

/-- The before-append stage issues no Gateway call. -/
theorem matchedBefore_trace (enc : Bool) (ee : ExistingExec) (st : St) :
    (matchedBefore enc ee st).trace = st.trace := by
  unfold matchedBefore
  split <;> rfl

/-- The before-append stage leaves a pending failure alone. -/
theorem matchedBefore_failure (enc : Bool) (ee : ExistingExec) (st : St) :
    (matchedBefore enc ee st).failure = st.failure := by
  unfold matchedBefore
  split <;> rfl

/-- The config comparison never touches the `levels` dict. -/
theorem matchedConfig_levels (a : String) (cm : Bool) (st : St) (n : NewExec)
    (ee : ExistingExec) (eid : String) :
    (matchedConfig a cm st n ee eid).levels = st.levels := by
  unfold matchedConfig
  (repeat' split) <;> simp [St.abort, apply_ite St.levels]

/-- The matched branch never touches the `levels` dict. -/
theorem processMatched_levels (a : String) (cm : Bool) (st : St) (n : NewExec)
    (ni ei : Int) :
    (processMatched a cm st n ni ei).levels = st.levels := by
  unfold processMatched
  (repeat' split) <;>
    (try simp [St.abort, matchedReq_levels, matchedConfig_levels, matchedBefore_levels,
      apply_ite St.levels]) <;>
    (repeat' split) <;>
    simp [St.abort, matchedReq_levels, matchedConfig_levels, matchedBefore_levels,
      apply_ite St.levels]

/-- The unmatched branch never touches the `levels` dict. -/
theorem processUnmatched_levels (gw : Gateway) (a : String) (cm : Bool) (st : St)
    (n : NewExec) (fap : String) (ni : Int) :
    (processUnmatched gw a cm st n fap ni).levels = st.levels := by
  unfold processUnmatched
  (repeat' split) <;>
    (try simp_all [St.abort, afterCreate_levels, apply_ite St.levels]) <;>
    (repeat' split) <;>
    (try simp_all [St.abort, afterCreate_levels, apply_ite St.levels])

/-- C7 concrete scenario: A at top level, B a subflow under A, C under B. -/
def c7NodeA : NewExec := { providerId := some "A", requirement := some "REQUIRED" }

/-- Node B of the C7 scenario: a subflow whose parent is A. -/
def c7NodeB : NewExec :=
  { displayName := some "B", requirement := some "REQUIRED", flowAlias := some "A" }

/-- Node C of the C7 scenario: an execution whose parent is B. -/
def c7NodeC : NewExec :=
  { providerId := some "C", requirement := some "REQUIRED", flowAlias := some "B" }

/-- Flow config for the C7 scenario. -/
def c7Cfg : FlowConfig :=
  { aliasName := "f", authenticationExecutions := some (some [c7NodeA, c7NodeB, c7NodeC]) }

/-- C7: level assignment.  First conjunct (general): processing one desired
node from an unfailed state, a node with no `flowAlias` records level `0`
under its identifier, and a node whose `flowAlias` is a previously recorded
identifier with level `pl` records level `pl + 1` — whatever else the node's
processing does.  Second conjunct: for the declared list
`[A (no parent), B (parent = A), C (parent = B)]` the recorded levels are
`0, 1, 2`. -/
theorem c7_level_assignment :
    (∀ (gw : Gateway) (a : String) (cm : Bool) (st : St) (pos : Int)
       (n : NewExec) (ident : String), st.failure = none →
       get_identifier n = .ok ident →
       ((n.flowAlias = none →
          (processNode gw a cm st pos n).levels = updateAssoc st.levels ident 0) ∧
        (∀ pa pl, n.flowAlias = some pa → lookupAssoc st.levels pa = some pl →
          (processNode gw a cm st pos n).levels =
            updateAssoc st.levels ident (pl + 1)))) ∧
    (create_or_update_executions {} c7Cfg true).levels =
      [("A", 0), ("B", 1), ("C", 2)] := by
  constructor
  · intro gw a cm st pos n ident hf hid
    constructor
    · intro hpa
      simp only [processNode, hf, hid, hpa, Option.isSome_none, Bool.false_eq_true,
        if_false]
      (repeat' split) <;>
        (try simp_all [St.abort, processMatched_levels, processUnmatched_levels,
          apply_ite St.levels]) <;>
        (repeat' split) <;>
        simp_all [St.abort, processMatched_levels, processUnmatched_levels,
          apply_ite St.levels]
    · intro pa pl hpa hlk
      simp only [processNode, hf, hid, hpa, hlk, Option.isSome_none, Bool.false_eq_true,
        if_false]
      (repeat' split) <;>
        (try simp_all [St.abort, processMatched_levels, processUnmatched_levels,
          apply_ite St.levels]) <;>
        (repeat' split) <;>
        simp_all [St.abort, processMatched_levels, processUnmatched_levels,
          apply_ite St.levels]
  · decide

/-- Witness for C7: the general conjunct applied to concrete nodes A (no
parent, level 0) and B (parent A, level 0 + 1). -/
theorem c7_level_assignment_witness :
    (processNode {} "f" true {} 0 c7NodeA).levels = updateAssoc [] "A" 0 ∧
    (processNode {} "f" true { levels := [("A", 0)] } 1 c7NodeB).levels =
      updateAssoc [("A", 0)] "B" (0 + 1) :=
  ⟨(c7_level_assignment.1 {} "f" true {} 0 c7NodeA "A" rfl rfl).1 rfl,
   (c7_level_assignment.1 {} "f" true { levels := [("A", 0)] } 1 c7NodeB "B"
      rfl rfl).2 "A" 0 rfl rfl⟩

/-! ## C9: dry-run purity -/

/-- The unmatched-branch tail issues no Gateway call. -/
theorem afterCreate_trace (a : String) (st : St) (n : NewExec) :
    (afterCreate a st n).trace = st.trace := by
  unfold afterCreate
  (repeat' split) <;> simp [St.abort, apply_ite St.trace]

/-- In check mode the position check issues no Gateway call. -/
theorem matchedPos_trace_check (a : String) (st : St) (n : NewExec)
    (eid : String) (ni ei : Int) :
    (matchedPos a true st n eid ni ei).trace = st.trace := by
  unfold matchedPos
  (repeat' split) <;> simp_all [St.abort, apply_ite St.trace]

/-- In check mode the attributes check issues no Gateway call. -/
theorem matchedReq_trace_check (a : String) (st : St) (n : NewExec)
    (ee : ExistingExec) (eid : String) (enc : Bool) (ni ei : Int) :
    (matchedReq a true st n ee eid enc ni ei).trace = st.trace := by
  unfold matchedReq
  (repeat' split) <;> simp [St.abort, matchedPos_trace_check, apply_ite St.trace]

/-- In check mode the config comparison issues no Gateway call. -/
theorem matchedConfig_trace_check (a : String) (st : St) (n : NewExec)
    (ee : ExistingExec) (eid : String) :
    (matchedConfig a true st n ee eid).trace = st.trace := by
  unfold matchedConfig
  (repeat' split) <;> simp_all [St.abort, apply_ite St.trace]

/-- In check mode the matched branch issues no Gateway call. -/
theorem processMatched_trace_check (a : String) (st : St) (n : NewExec)
    (ni ei : Int) :
    (processMatched a true st n ni ei).trace = st.trace := by
  unfold processMatched
  (repeat' split) <;>
    (try simp [St.abort, matchedReq_trace_check, matchedConfig_trace_check,
      matchedBefore_trace, apply_ite St.trace]) <;>
    (repeat' split) <;>
    simp [St.abort, matchedReq_trace_check, matchedConfig_trace_check,
      matchedBefore_trace, apply_ite St.trace]

/-- In check mode the unmatched branch issues no Gateway call. -/
theorem processUnmatched_trace_check (gw : Gateway) (a : String) (st : St)
    (n : NewExec) (fap : String) (ni : Int) :
    (processUnmatched gw a true st n fap ni).trace = st.trace := by
  unfold processUnmatched
  (repeat' split) <;>
    (try simp_all [St.abort, afterCreate_trace, apply_ite St.trace]) <;>
    (repeat' split) <;>
    (try simp_all [St.abort, afterCreate_trace, apply_ite St.trace])

/-- In check mode one desired node issues no Gateway call. -/
theorem processNode_trace_check (gw : Gateway) (a : String) (st : St)
    (pos : Int) (n : NewExec) :
    (processNode gw a true st pos n).trace = st.trace := by
  unfold processNode
  (repeat' split) <;>
    (try simp_all [St.abort, processMatched_trace_check, processUnmatched_trace_check,
      apply_ite St.trace]) <;>
    (repeat' split) <;>
    (try simp_all [St.abort, processMatched_trace_check, processUnmatched_trace_check,
      apply_ite St.trace])

/-- In check mode the desired-execution loop issues no Gateway call. -/
theorem runExecs_trace_check (gw : Gateway) (a : String) :
    ∀ (l : List NewExec) (st : St) (i : Int),
      (runExecs gw a true st i l).trace = st.trace := by
  intro l
  induction l with
  | nil => intro st i; rfl
  | cons n rest ih =>
    intro st i
    rw [runExecs, ih, processNode_trace_check]

/-- In check mode the orphan loop issues no Gateway call. -/
theorem orphanStep_trace_check (a : String) (st : St) (e : ExistingExec) :
    (orphanStep a true st e).trace = st.trace := by
  unfold orphanStep
  (repeat' split) <;>
    (try exact absurd rfl (by assumption)) <;>
    simp_all [St.abort, apply_ite St.trace]

/-- In check mode the orphan-removal phase issues no Gateway call. -/
theorem remove_extra_trace_check (a : String) (st : St) :
    (remove_extra_executions a true st).trace = st.trace := by
  unfold remove_extra_executions
  generalize st.existing = l
  induction l generalizing st with
  | nil => rfl
  | cons e rest ih =>
    rw [List.foldl_cons, ih, orphanStep_trace_check]

/-- The unmatched-branch tail computes the same state whatever trace has
been accumulated so far. -/
theorem afterCreate_mode (a : String) (st : St) (n : NewExec) (t : List GatewayCall) :
    afterCreate a { st with trace := t } n = { afterCreate a st n with trace := t } := by
  unfold afterCreate
  (repeat' split) <;> simp_all [St.abort]

/-- Raising an exception commutes with fixing the call trace. -/
theorem abort_mode (st : St) (t : List GatewayCall) (m : String) :
    St.abort { st with trace := t } m = { st.abort m with trace := t } := rfl

/-- The before-append stage computes the same state whatever trace has been
accumulated so far. -/
theorem matchedBefore_mode (enc : Bool) (ee : ExistingExec) (st : St)
    (t : List GatewayCall) :
    matchedBefore enc ee { st with trace := t } =
      { matchedBefore enc ee st with trace := t } := by
  unfold matchedBefore
  split <;> rfl

/-- The position check computes, in check mode, the same state as in normal
mode apart from the issued calls. -/
theorem matchedPos_mode (a : String) (st : St) (n : NewExec) (eid : String)
    (ni ei : Int) (t : List GatewayCall) :
    matchedPos a true { st with trace := t } n eid ni ei =
      { matchedPos a false st n eid ni ei with trace := t } := by
  unfold matchedPos
  (repeat' split) <;>
    (try exact absurd rfl (by assumption)) <;>
    (try simp_all [St.abort]) <;>
    (repeat' split) <;>
    simp_all [St.abort]

/-- The config comparison computes, in check mode, the same state as in
normal mode apart from the issued calls. -/
theorem matchedConfig_mode (a : String) (st : St) (n : NewExec) (ee : ExistingExec)
    (eid : String) (t : List GatewayCall) :
    matchedConfig a true { st with trace := t } n ee eid =
      { matchedConfig a false st n ee eid with trace := t } := by
  unfold matchedConfig
  (repeat' split) <;>
    (try exact absurd rfl (by assumption)) <;>
    simp_all [St.abort]

/-- A non-failing attributes check computes, in check mode, the same state
as in normal mode apart from the issued calls.  (When `exec_need_changes`
holds, the normal-mode run raises the `TypeError` of line 340, so the
hypothesis confines the comparison to the no-change path.) -/
theorem matchedReq_mode (a : String) (st : St) (n : NewExec) (ee : ExistingExec)
    (eid : String) (enc : Bool) (ni ei : Int) (t : List GatewayCall)
    (h : (matchedReq a false st n ee eid enc ni ei).failure = none) :
    matchedReq a true { st with trace := t } n ee eid enc ni ei =
      { matchedReq a false st n ee eid enc ni ei with trace := t } := by
  cases enc with
  | false => exact matchedPos_mode a st n eid ni ei t
  | true =>
    exfalso
    unfold matchedReq at h
    simp [St.abort] at h

/-- A non-failing matched branch computes, in check mode, the same state as
in normal mode apart from the issued calls. -/
theorem processMatched_mode (a : String) (st s2 : St) (n : NewExec) (ni ei : Int)
    (t : List GatewayCall) (h12 : s2 = { st with trace := t })
    (h : (processMatched a false st n ni ei).failure = none) :
    processMatched a true s2 n ni ei =
      { processMatched a false st n ni ei with trace := t } := by
  subst h12
  unfold processMatched at h ⊢
  simp only [show ({ st with trace := t } : St).existing = st.existing from rfl,
    matchedBefore_mode] at h ⊢
  cases hid : (st.existing.getD ei.toNat clearedExec).id with
  | none =>
    simp only [hid]
    rfl
  | some eid =>
    simp only [hid] at h ⊢
    rw [matchedConfig_mode]
    simp only [show ∀ (s : St) (t2 : List GatewayCall),
      ({ s with trace := t2 } : St).failure = s.failure from fun _ _ => rfl] at h ⊢
    split
    · next hc =>
        rw [if_pos hc] at h
    · next hc =>
        rw [if_neg hc] at h
        apply matchedReq_mode
        exact h

/-- A non-failing unmatched branch computes, in check mode, the same state
as in normal mode apart from the issued calls.  (The rename and creation
paths both raise in normal mode — the `TypeError` of lines 359/368 — so the
hypothesis confines the branch to a node with no identity, which is left
unprocessed.) -/
theorem processUnmatched_mode (gw : Gateway) (a : String) (st s2 : St) (n : NewExec)
    (fap : String) (ni : Int) (t : List GatewayCall)
    (h12 : s2 = { st with trace := t })
    (h : (processUnmatched gw a false st n fap ni).failure = none) :
    processUnmatched gw a true s2 n fap ni =
      { processUnmatched gw a false st n fap ni with trace := t } := by
  subst h12
  unfold processUnmatched at h ⊢
  by_cases hname : (n.providerId.isSome || n.displayName.isSome) = true
  · exfalso
    rw [if_pos hname] at h
    (repeat' (split at h)) <;>
      (try simp_all [St.abort, apply_ite St.failure]) <;>
      (repeat' (split at h)) <;>
      simp_all [St.abort, apply_ite St.failure]
  · simp only [if_neg hname] at h ⊢
    (try rfl)

/-- A non-failing node step computes, in check mode, the same state as in
normal mode apart from the issued calls. -/
theorem processNode_mode (gw : Gateway) (a : String) (st : St) (pos : Int)
    (n : NewExec) (t : List GatewayCall)
    (h : (processNode gw a false st pos n).failure = none) :
    processNode gw a true { st with trace := t } pos n =
      { processNode gw a false st pos n with trace := t } := by
  unfold processNode at h ⊢
  simp only [show ({ st with trace := t } : St).failure = st.failure from rfl,
    show ({ st with trace := t } : St).levels = st.levels from rfl,
    show ({ st with trace := t } : St).existing = st.existing from rfl,
    show ∀ (s : St) (L : List (String × Int)) (t2 : List GatewayCall),
      ({ { s with trace := t2 } with levels := L } : St).existing = s.existing from
      fun _ _ _ => rfl] at h ⊢
  cases hfs : st.failure with
  | some m => simp [hfs] at h
  | none =>
    simp only [hfs, Option.isSome_none, Bool.false_eq_true, if_false] at h ⊢
    cases hgi : get_identifier n with
    | error e =>
      simp only [hgi] at h ⊢
      rfl
    | ok ident =>
      simp only [hgi] at h ⊢
      cases hfa : n.flowAlias with
      | none =>
        simp only [hfa] at h ⊢
        cases hfind : find_exec_in_executions { n with flowAlias := none, level := some 0 }
            st.existing with
        | error e =>
          simp only [hfind] at h ⊢
          rfl
        | ok xi =>
          simp only [hfind] at h ⊢
          cases hxb : xi != -1 with
          | true =>
            simp only [hxb, eq_self_iff_true, if_true] at h ⊢
            apply processMatched_mode
            · rfl
            · exact h
          | false =>
            simp only [hxb, Bool.false_eq_true, if_false] at h ⊢
            apply processUnmatched_mode
            · rfl
            · exact h
      | some pa =>
        simp only [hfa] at h ⊢
        cases hlk : lookupAssoc st.levels pa with
        | none =>
          simp only [hlk] at h ⊢
          rfl
        | some pl =>
          simp only [hlk] at h ⊢
          cases hfind : find_exec_in_executions
              { n with flowAlias := some pa, level := some (pl + 1) } st.existing with
          | error e =>
            simp only [hfind] at h ⊢
            rfl
          | ok xi =>
            simp only [hfind] at h ⊢
            cases hxb : xi != -1 with
            | true =>
              simp only [hxb, eq_self_iff_true, if_true] at h ⊢
              apply processMatched_mode
              · rfl
              · exact h
            | false =>
              simp only [hxb, Bool.false_eq_true, if_false] at h ⊢
              apply processUnmatched_mode
              · rfl
              · exact h

/-- A non-failing desired-execution loop computes, in check mode, the same
state as in normal mode apart from the issued calls. -/
theorem runExecs_mode (gw : Gateway) (a : String) :
    ∀ (l : List NewExec) (st : St) (i : Int) (t : List GatewayCall),
      (runExecs gw a false st i l).failure = none →
      runExecs gw a true { st with trace := t } i l =
        { runExecs gw a false st i l with trace := t } := by
  intro l
  induction l with
  | nil => intro st i t h; rfl
  | cons n rest ih =>
    intro st i t h
    rw [runExecs, runExecs]
    have hstep : (processNode gw a false st i n).failure = none := by
      cases hfs : (processNode gw a false st i n).failure with
      | none => rfl
      | some m =>
        exfalso
        rw [runExecs] at h
        rw [runExecs_of_failure gw a false rest _ (i + 1) (by rw [hfs]; rfl)] at h
        rw [hfs] at h
        cases h
    rw [processNode_mode gw a st i n t hstep]
    rw [runExecs] at h
    exact ih (processNode gw a false st i n) (i + 1) t h

/-- The orphan loop does nothing once a failure is pending (fold form). -/
theorem foldl_orphan_of_failure (a : String) (cm : Bool) :
    ∀ (l : List ExistingExec) (st : St), st.failure.isSome →
      l.foldl (orphanStep a cm) st = st := by
  intro l
  induction l with
  | nil => intro st h; rfl
  | cons e rest ih =>
    intro st h
    rw [List.foldl_cons, orphanStep_of_failure a cm st e h, ih st h]

/-- A non-failing orphan step computes, in check mode, the same state as in
normal mode apart from the issued calls. -/
theorem orphanStep_mode (a : String) (st : St) (e : ExistingExec)
    (t : List GatewayCall)
    (h : (orphanStep a false st e).failure = none) :
    orphanStep a true { st with trace := t } e =
      { orphanStep a false st e with trace := t } := by
  unfold orphanStep at h ⊢
  simp only [show ({ st with trace := t } : St).failure = st.failure from rfl] at h ⊢
  (repeat' split) <;>
    (try exact absurd rfl (by assumption)) <;>
    simp_all [St.abort]

/-- A non-failing orphan loop computes, in check mode, the same state as in
normal mode apart from the issued calls (fold form). -/
theorem foldl_orphan_mode (a : String) :
    ∀ (l : List ExistingExec) (st : St) (t : List GatewayCall),
      (l.foldl (orphanStep a false) st).failure = none →
      l.foldl (orphanStep a true) { st with trace := t } =
        { l.foldl (orphanStep a false) st with trace := t } := by
  intro l
  induction l with
  | nil => intro st t h; rfl
  | cons e rest ih =>
    intro st t h
    rw [List.foldl_cons, List.foldl_cons]
    have hstep : (orphanStep a false st e).failure = none := by
      cases hfs : (orphanStep a false st e).failure with
      | none => rfl
      | some m =>
        exfalso
        rw [List.foldl_cons] at h
        rw [foldl_orphan_of_failure a false rest _ (by rw [hfs]; rfl)] at h
        rw [hfs] at h
        cases h
    rw [orphanStep_mode a st e t hstep]
    rw [List.foldl_cons] at h
    exact ih (orphanStep a false st e) t h

/-- A non-failing orphan-removal phase computes, in check mode, the same
state as in normal mode apart from the issued calls. -/
theorem remove_extra_mode (a : String) (st : St) (t : List GatewayCall)
    (h : (remove_extra_executions a false st).failure = none) :
    remove_extra_executions a true { st with trace := t } =
      { remove_extra_executions a false st with trace := t } := by
  unfold remove_extra_executions at h ⊢
  simp only [show ({ st with trace := t } : St).existing = st.existing from rfl]
  exact foldl_orphan_mode a st.existing st t h

/-- C9: dry-run purity.  First conjunct: with `check_mode = True` the run
issues no mutating Gateway call whatsoever — on every input, including
failing ones.  Second conjunct: whenever the non-check run completes without
failure, the check-mode run computes exactly the same `changed` flag,
`before`/`after` diff, report lines, levels and working copy — everything
except the issued calls.  (The comparison/classification logic is shared;
only the call sites are guarded by `check_mode`.) -/
theorem c9_dry_run_purity :
    (∀ (gw : Gateway) (cfg : FlowConfig),
      (create_or_update_executions gw cfg true).trace = []) ∧
    (∀ (gw : Gateway) (cfg : FlowConfig),
      (create_or_update_executions gw cfg false).failure = none →
      create_or_update_executions gw cfg true =
        { create_or_update_executions gw cfg false with trace := [] }) := by
  constructor
  · intro gw cfg
    unfold create_or_update_executions
    cases cfg.authenticationExecutions with
    | none => rfl
    | some ev =>
      rw [remove_extra_trace_check, runExecs_trace_check]
  · intro gw cfg h
    unfold create_or_update_executions at h ⊢
    cases hce : cfg.authenticationExecutions with
    | none => rfl
    | some ev =>
      simp only [hce] at h ⊢
      have hrex : (runExecs gw cfg.aliasName false { existing := gw.initial } 0
          (ev.getD [])).failure = none := by
        cases hfs : (runExecs gw cfg.aliasName false { existing := gw.initial } 0
            (ev.getD [])).failure with
        | none => rfl
        | some m =>
          exfalso
          rw [remove_extra_of_failure cfg.aliasName false _ (by rw [hfs]; rfl)] at h
          rw [hfs] at h
          cases h
      have e1 : runExecs gw cfg.aliasName true ({ existing := gw.initial } : St) 0
          (ev.getD []) =
          { runExecs gw cfg.aliasName false { existing := gw.initial } 0 (ev.getD [])
            with trace := [] } :=
        runExecs_mode gw cfg.aliasName (ev.getD []) { existing := gw.initial } 0 [] hrex
      rw [e1]
      exact remove_extra_mode cfg.aliasName _ [] h

/-- Witness for C9: both conjuncts applied to the concrete orphan-deletion
scenario of C8 (whose non-check run succeeds): the check-mode run issues no
call and agrees with the non-check run everywhere but the trace. -/
theorem c9_dry_run_purity_witness :
    (create_or_update_executions c8Gw c8Cfg true).trace = [] ∧
    create_or_update_executions c8Gw c8Cfg true =
      { create_or_update_executions c8Gw c8Cfg false with trace := [] } :=
  ⟨c9_dry_run_purity.1 c8Gw c8Cfg, c9_dry_run_purity.2 c8Gw c8Cfg rfl⟩

/-! ## C1: idempotence of reconciliation -/

/-- The level assignment of the per-node loop (lines 302-304), extracted as
a pure pass over the desired list: the level of each node in order, or
`none` when some node has no identifier or an unresolved parent. -/
def pureLevelsGo (L : List (String × Int)) : List NewExec → Option (List Int)
  | [] => some []
  | n :: rest =>
    match get_identifier n with
    | .error _ => none
    | .ok ident =>
      match (match n.flowAlias with
             | none => some 0
             | some a2 => (lookupAssoc L a2).map (· + 1)) with
      | none => none
      | some lvl => (pureLevelsGo (updateAssoc L ident lvl) rest).map (lvl :: ·)

/-- The declared (non-None) pairs of a desired config — what the remote side
stores after a successful config push. -/
def declaredPairs (c : ConfigMap) : ExistConfig :=
  c.filterMap (fun p => p.2.map (fun v => (p.1, v)))

/-- The existing entry corresponding to a desired node after a successful
first run: the same name keys and requirement, the computed level, the list
position as `index`, a server-assigned id and the declared config. -/
def convergedEntry (ids : Nat → String) (i : Nat) (lvl : Int) (n : NewExec) :
    ExistingExec :=
  { id := some (ids i), providerId := n.providerId, displayName := n.displayName,
    requirement := n.requirement, index := some (Int.ofNat i), level := some lvl,
    authenticationConfig := n.authenticationConfig.map declaredPairs }

/-- The converged entries for the nodes from position `k` on. -/
def convergedFrom (ids : Nat → String) :
    Nat → List Int → List NewExec → List ExistingExec
  | _, _, [] => []
  | _, [], _ :: _ => []
  | k, lvl :: ls, n :: rest =>
    convergedEntry ids k lvl n :: convergedFrom ids (k + 1) ls rest

/-- The snapshot left behind by a successful first run of the reconciliation
over `nodes` (`ids` gives the server-assigned remote ids): one converged
entry per desired node, in order; `none` when the level assignment fails. -/
def convergedState (ids : Nat → String) (nodes : List NewExec) :
    Option (List ExistingExec) :=
  (pureLevelsGo [] nodes).map (fun lvls => convergedFrom ids 0 lvls nodes)

/-- A cleared entry never passes the name test of the matcher. -/
theorem identPreMatch_cleared (s : NewExec) : identPreMatch clearedExec s = false := rfl

/-- The matcher walks past a block of cleared entries, advancing its index. -/
theorem findExecGo_append_cleared (s : NewExec) :
    ∀ (cl : List ExistingExec) (i : Int) (l2 : List ExistingExec),
      (∀ e ∈ cl, e = clearedExec) →
      findExecGo s i (cl ++ l2) = findExecGo s (i + Int.ofNat cl.length) l2 := by
  intro cl
  induction cl with
  | nil => intro i l2 _; simp
  | cons e rest ih =>
    intro i l2 hall
    have he : e = clearedExec := hall e (List.mem_cons_self _ _)
    subst he
    rw [List.cons_append, findExecGo]
    simp only [identPreMatch_cleared, Bool.false_eq_true, if_false]
    rw [ih (i + 1) l2 (fun e2 h2 => hall e2 (List.mem_cons_of_mem _ h2))]
    congr 1
    simp [Int.ofNat_succ]
    omega

/-- The matcher accepts a matching head entry at its current index. -/
theorem findExecGo_head_match (s : NewExec) (e : ExistingExec)
    (rest : List ExistingExec) (i : Int) (le ls : Int)
    (hpm : identPreMatch e s = true) (hle : e.level = some le)
    (hls : s.level = some ls) (heq : le = ls) :
    findExecGo s i (e :: rest) = .ok i := by
  simp [findExecGo, hpm, hle, hls, heq]

/-- Indexing just past a block of cleared entries returns the head of the
remainder. -/
theorem getD_append_mid (cl : List ExistingExec) (e : ExistingExec)
    (r : List ExistingExec) :
    (cl ++ e :: r).getD cl.length clearedExec = e := by
  induction cl with
  | nil => rfl
  | cons x rest ih => simpa using ih

/-- Setting just past a block of cleared entries replaces the head of the
remainder. -/
theorem set_append_mid (cl : List ExistingExec) (e x : ExistingExec)
    (r : List ExistingExec) :
    (cl ++ e :: r).set cl.length x = cl ++ x :: r := by
  induction cl with
  | nil => rfl
  | cons y rest ih => simp [List.set, ih]

/-- A converged entry passes the name test against any desired dict with the
same name keys (the node has an identifier). -/
theorem identPreMatch_converged (ids : Nat → String) (k : Nat) (lvl : Int)
    (n s : NewExec) (ident : String) (hgi : get_identifier n = .ok ident)
    (hp : s.providerId = n.providerId) (hd : s.displayName = n.displayName) :
    identPreMatch (convergedEntry ids k lvl n) s = true := by
  unfold identPreMatch convergedEntry
  unfold get_identifier at hgi
  rw [hp, hd]
  cases hpp : n.providerId with
  | some p => simp
  | none =>
    cases hdd : n.displayName with
    | some d => simp
    | none => rw [hpp, hdd] at hgi; cases hgi

/-- The matcher finds the converged entry sitting just past the cleared
block, at its own list position. -/
theorem find_converged (ids : Nat → String) (k : Nat) (lvl : Int) (n s : NewExec)
    (cleared tail : List ExistingExec) (ident : String)
    (hcl : ∀ e ∈ cleared, e = clearedExec) (hk : cleared.length = k)
    (hgi : get_identifier n = .ok ident)
    (hp : s.providerId = n.providerId) (hd : s.displayName = n.displayName)
    (hl : s.level = some lvl) :
    find_exec_in_executions s (cleared ++ convergedEntry ids k lvl n :: tail) =
      .ok (Int.ofNat k) := by
  unfold find_exec_in_executions
  rw [findExecGo_append_cleared s cleared 0 _ hcl,
    findExecGo_head_match s _ tail _ lvl lvl
      (identPreMatch_converged ids k lvl n s ident hgi hp hd) rfl hl rfl]
  rw [hk]
  congr 1
  omega

/-- The "index" key of a desired dict whose `index` value is `None` is in
its `None`-keys list. -/
theorem noneKeys_contains_index (s : NewExec) (h : s.index = none) :
    "index" ∈ noneKeys s := by
  unfold noneKeys
  rw [h]
  simp

/-- A desired node needs no attribute change against its own converged
entry: every compared key is equal, the `index` key being either excluded
(value `None`) or equal to the entry's list position. -/
theorem struct_incl_converged (ids : Nat → String) (k : Nat) (lvl : Int)
    (n s : NewExec) (hp : s.providerId = n.providerId)
    (hd : s.displayName = n.displayName) (hr : s.requirement = n.requirement)
    (hl : s.level = some lvl)
    (hidx : s.index = none ∨ s.index = some (Int.ofNat k)) :
    is_struct_included s (convergedEntry ids k lvl n)
      (["authenticationConfig", "flowAlias"] ++ noneKeys s) = true := by
  rcases hidx with hidx | hidx
  · have hcont : (["authenticationConfig", "flowAlias"] ++ noneKeys s).contains "index"
        = true := by
      have hm : "index" ∈ ["authenticationConfig", "flowAlias"] ++ noneKeys s :=
        List.mem_append_right _ (noneKeys_contains_index s hidx)
      exact List.elem_eq_true_of_mem hm
    unfold is_struct_included fldIncludedS fldIncluded convergedEntry
    rw [hp, hd, hr, hl, hidx, hcont]
    simp
  · unfold is_struct_included fldIncludedS fldIncluded convergedEntry
    rw [hp, hd, hr, hl, hidx]
    simp
/-- Looking a declared key up in the stored config finds the declared value
(keys are unique in a Python dict). -/
theorem lookup_declaredPairs (c : ConfigMap) (hnd : (c.map Prod.fst).Nodup) :
    ∀ (k v : String), (k, some v) ∈ c → lookupStr (declaredPairs c) k = some v := by
  induction c with
  | nil => intro k v h; cases h
  | cons p rest ih =>
    intro k v h
    obtain ⟨k1, v1⟩ := p
    simp only [List.map_cons, List.nodup_cons] at hnd
    rcases List.mem_cons.mp h with heq | hmem
    · have h1 : k1 = k := (congrArg Prod.fst heq).symm
      have h2 : v1 = some v := (congrArg Prod.snd heq).symm
      subst h1
      subst h2
      simp [declaredPairs, lookupStr]
    · have hk1 : k ≠ k1 := by
        intro hkk
        subst hkk
        exact hnd.1 (List.mem_map_of_mem Prod.fst hmem)
      cases v1 with
      | none =>
        simpa [declaredPairs] using ih hnd.2 k v hmem
      | some w =>
        have hrec := ih hnd.2 k v hmem
        have hbeq : (k1 == k) = false := by
          simp only [beq_eq_false_iff_ne, ne_eq]
          exact fun hh => hk1 hh.symm
        have hdp : declaredPairs ((k1, some w) :: rest) = (k1, w) :: declaredPairs rest :=
          rfl
        rw [hdp]
        simp only [lookupStr, hbeq, Bool.false_eq_true, if_false]
        exact hrec

/-- The config loop finds no difference when every declared key looks up to
its own declared value. -/
theorem configLoop_go_ok_self (e : ExistingExec) (c0 : ExistConfig)
    (he : e.authenticationConfig = some c0) :
    ∀ (c : ConfigMap), (∀ k v, (k, some v) ∈ c → lookupStr c0 k = some v) →
      ∀ acc, configLoop.go e acc c = .ok acc := by
  intro c
  induction c with
  | nil => intro _ acc; rfl
  | cons p rest ih =>
    intro hall acc
    obtain ⟨k, v⟩ := p
    cases v with
    | none =>
      simpa [configLoop.go] using
        ih (fun k2 v2 h2 => hall k2 v2 (List.mem_cons_of_mem _ h2)) acc
    | some s =>
      have hk : lookupStr c0 k = some s := hall k s (List.mem_cons_self _ _)
      have := ih (fun k2 v2 h2 => hall k2 v2 (List.mem_cons_of_mem _ h2)) (acc || (s != s))
      simpa [configLoop.go, he, hk] using this

/-- The config comparison against a node's own converged entry leaves the
state untouched. -/
theorem matchedConfig_converged (a : String) (cm : Bool) (st : St)
    (ids : Nat → String) (k : Nat) (lvl : Int) (n s : NewExec) (eid : String)
    (hc : s.authenticationConfig = n.authenticationConfig)
    (hnd : ∀ c, n.authenticationConfig = some c → (c.map Prod.fst).Nodup) :
    matchedConfig a cm st s (convergedEntry ids k lvl n) eid = st := by
  unfold matchedConfig
  rw [hc]
  cases hcc : n.authenticationConfig with
  | none => rfl
  | some c =>
    have hloop : configLoop c (convergedEntry ids k lvl n) = .ok false := by
      have hentry : (convergedEntry ids k lvl n).authenticationConfig =
          some (declaredPairs c) := by
        simp [convergedEntry, hcc]
      exact configLoop_go_ok_self (convergedEntry ids k lvl n) (declaredPairs c)
        hentry c (lookup_declaredPairs c (hnd c hcc)) false
    simp [hloop]

/-- The orphan loop skips a cleared entry. -/
theorem orphanStep_cleared (a : String) (cm : Bool) (st : St) :
    orphanStep a cm st clearedExec = st := by
  unfold orphanStep
  simp

/-- The orphan loop does nothing on an all-cleared working copy. -/
theorem foldl_orphan_cleared (a : String) (cm : Bool) :
    ∀ (l : List ExistingExec) (st : St), (∀ e ∈ l, e = clearedExec) →
      l.foldl (orphanStep a cm) st = st := by
  intro l
  induction l with
  | nil => intro st _; rfl
  | cons e rest ih =>
    intro st hall
    have he : e = clearedExec := hall e (List.mem_cons_self _ _)
    subst he
    rw [List.foldl_cons, orphanStep_cleared,
      ih st (fun e2 h2 => hall e2 (List.mem_cons_of_mem _ h2))]

/-- A found index (a natural number) is never the `-1` sentinel. -/
theorem ofNat_bne_neg_one (k : Nat) : (Int.ofNat k != -1) = true := by
  simp only [bne_iff_ne, ne_eq]
  intro h
  have h2 : (k : Int) = -1 := h
  omega

/-- The before-append stage does nothing when no changes are needed. -/
theorem matchedBefore_false (ee : ExistingExec) (st : St) :
    matchedBefore false ee st = st := by
  unfold matchedBefore
  simp

/-- The matched branch is a complete no-op on a node matched against its
own converged entry just past the cleared block: nothing differs, nothing is
pushed, and the entry is consumed (cleared in place).  The node's `index`
is either unset or pins exactly the position the entry sits at. -/
theorem processMatched_converged (a : String) (cm : Bool) (ids : Nat → String)
    (k : Nat) (lvl : Int) (n s : NewExec) (L : List (String × Int))
    (cleared tail : List ExistingExec)
    (hk : cleared.length = k)
    (hp : s.providerId = n.providerId) (hd : s.displayName = n.displayName)
    (hr : s.requirement = n.requirement) (hl : s.level = some lvl)
    (hidx : s.index = none ∨ s.index = some (Int.ofNat k))
    (hc : s.authenticationConfig = n.authenticationConfig)
    (hnd : ∀ c, n.authenticationConfig = some c → (c.map Prod.fst).Nodup) :
    processMatched a cm
      ⟨L, cleared ++ convergedEntry ids k lvl n :: tail, false, "", "", [], [], none⟩
      s (Int.ofNat k) (Int.ofNat k)
    = ⟨L, (cleared ++ [clearedExec]) ++ tail, false, "", "", [], [], none⟩ := by
  subst hk
  unfold processMatched
  simp only [show (Int.ofNat cleared.length).toNat = cleared.length from rfl,
    getD_append_mid,
    struct_incl_converged ids cleared.length lvl n s hp hd hr hl hidx,
    bne_self_eq_false, Bool.not_true, Bool.or_false, matchedBefore_false]
  simp only [show (convergedEntry ids cleared.length lvl n).id =
    some (ids cleared.length) from rfl]
  rw [matchedConfig_converged a cm _ ids cleared.length lvl n _ (ids cleared.length)
    (by simpa using hc) hnd]
  simp [matchedReq, matchedPos, bne_self_eq_false,
    show (Int.ofNat cleared.length).toNat = cleared.length from rfl,
    set_append_mid]

/-- One loop iteration of the second run: a desired node, processed at its
own position against the converged snapshot (its `index` unset or pinning
exactly that position), only records its level and clears its own entry. -/
theorem c1_step (gw : Gateway) (a : String) (cm : Bool) (ids : Nat → String)
    (n : NewExec) (ident : String) (lvl : Int) (L : List (String × Int))
    (cleared tail : List ExistingExec)
    (hgi : get_identifier n = .ok ident)
    (hlvl : (match n.flowAlias with
             | none => some 0
             | some a2 => (lookupAssoc L a2).map (· + 1)) = some lvl)
    (hidx : n.index = none ∨ n.index = some (Int.ofNat cleared.length))
    (hnd : ∀ c, n.authenticationConfig = some c → (c.map Prod.fst).Nodup)
    (hcl : ∀ e ∈ cleared, e = clearedExec) :
    processNode gw a cm
      ⟨L, cleared ++ convergedEntry ids cleared.length lvl n :: tail,
        false, "", "", [], [], none⟩
      (Int.ofNat cleared.length) n
    = ⟨updateAssoc L ident lvl, (cleared ++ [clearedExec]) ++ tail,
        false, "", "", [], [], none⟩ := by
  have hgd : Option.getD n.index (Int.ofNat cleared.length) = Int.ofNat cleared.length := by
    rcases hidx with h | h <;> simp [h]
  cases hfa : n.flowAlias with
  | none =>
    simp only [hfa] at hlvl
    injection hlvl with hlvl0
    subst hlvl0
    unfold processNode
    simp only [hgi, hfa, hgd, Option.isSome_none, Bool.false_eq_true, if_false]
    rw [find_converged ids cleared.length 0 n
      { n with flowAlias := none, level := some 0 }
      cleared tail ident hcl rfl hgi rfl rfl rfl]
    simp only [ofNat_bne_neg_one, if_true]
    rw [processMatched_converged a cm ids cleared.length 0 n
      { n with flowAlias := none, level := some 0 }
      (updateAssoc L ident 0) cleared tail rfl rfl rfl rfl rfl hidx rfl hnd]
  | some pa =>
    simp only [hfa] at hlvl
    cases hlk : lookupAssoc L pa with
    | none => rw [hlk] at hlvl; cases hlvl
    | some pl =>
      rw [hlk] at hlvl
      have hlvl0 : pl + 1 = lvl := by simpa using hlvl
      subst hlvl0
      unfold processNode
      simp only [hgi, hfa, hlk, hgd, Option.isSome_none, Bool.false_eq_true, if_false]
      rw [find_converged ids cleared.length (pl + 1) n
        { n with flowAlias := some pa, level := some (pl + 1) }
        cleared tail ident hcl rfl hgi rfl rfl rfl]
      simp only [ofNat_bne_neg_one, if_true]
      rw [processMatched_converged a cm ids cleared.length (pl + 1) n
        { n with flowAlias := some pa, level := some (pl + 1) }
        (updateAssoc L ident (pl + 1)) cleared tail rfl rfl rfl rfl rfl hidx rfl hnd]

/-- The whole desired loop of the second run: processing all remaining nodes
against their converged entries consumes every entry and changes nothing;
each node's `index` is unset or equals its own absolute position. -/
theorem c1_go (gw : Gateway) (a : String) (cm : Bool) (ids : Nat → String) :
    ∀ (suffix : List NewExec) (lvls : List Int) (L : List (String × Int))
      (cleared : List ExistingExec),
      pureLevelsGo L suffix = some lvls →
      (∀ e ∈ cleared, e = clearedExec) →
      (∀ (j : Nat) (n : NewExec), suffix[j]? = some n →
        n.index = none ∨ n.index = some (Int.ofNat (cleared.length + j))) →
      (∀ n ∈ suffix, ∀ c, n.authenticationConfig = some c → (c.map Prod.fst).Nodup) →
      ∃ L2, runExecs gw a cm
          ⟨L, cleared ++ convergedFrom ids cleared.length lvls suffix,
            false, "", "", [], [], none⟩
          (Int.ofNat cleared.length) suffix
        = ⟨L2, cleared ++ List.replicate suffix.length clearedExec,
            false, "", "", [], [], none⟩ := by
  intro suffix
  induction suffix with
  | nil =>
    intro lvls L cleared h1 h2 h3 h4
    refine ⟨L, ?_⟩
    simp [runExecs, convergedFrom]
  | cons n rest ih =>
    intro lvls L cleared h1 h2 h3 h4
    simp only [pureLevelsGo] at h1
    cases hgi : get_identifier n with
    | error e => simp [hgi] at h1
    | ok ident =>
      simp only [hgi] at h1
      cases hlv : (match n.flowAlias with
                   | none => some 0
                   | some a2 => (lookupAssoc L a2).map (· + 1)) with
      | none => simp [hlv] at h1
      | some lvl =>
        simp only [hlv] at h1
        cases hrest : pureLevelsGo (updateAssoc L ident lvl) rest with
        | none => simp [hrest] at h1
        | some ls =>
          simp only [hrest] at h1
          have h1b : lvl :: ls = lvls := by simpa using h1
          subst h1b
          rw [runExecs]
          rw [show convergedFrom ids cleared.length (lvl :: ls) (n :: rest) =
            convergedEntry ids cleared.length lvl n ::
              convergedFrom ids (cleared.length + 1) ls rest from rfl]
          have hidx0 : n.index = none ∨ n.index = some (Int.ofNat cleared.length) := by
            simpa using h3 0 n (by simp)
          rw [c1_step gw a cm ids n ident lvl L cleared _ hgi hlv hidx0
            (h4 n (List.mem_cons_self _ _)) h2]
          have hcl2 : ∀ e ∈ cleared ++ [clearedExec], e = clearedExec := by
            intro e he
            rcases List.mem_append.mp he with h | h
            · exact h2 e h
            · simpa using h
          have h3b : ∀ (j : Nat) (n2 : NewExec), rest[j]? = some n2 →
              n2.index = none ∨
              n2.index = some (Int.ofNat ((cleared ++ [clearedExec]).length + j)) := by
            intro j n2 hj
            rcases h3 (j + 1) n2 (by simpa using hj) with h | h
            · exact Or.inl h
            · right
              rw [h, List.length_append, List.length_singleton]
              congr 2
              omega
          have hih := ih ls (updateAssoc L ident lvl) (cleared ++ [clearedExec]) hrest
            hcl2 h3b
            (fun n2 hn2 c hc => h4 n2 (List.mem_cons_of_mem _ hn2) c hc)
          rw [List.length_append, List.length_singleton] at hih
          obtain ⟨L2, hrun⟩ := hih
          refine ⟨L2, ?_⟩
          rw [show (Int.ofNat cleared.length) + 1 = Int.ofNat (cleared.length + 1) from
            (Int.ofNat_succ cleared.length).symm]
          rw [hrun]
          simp [List.replicate_succ, List.append_assoc]

/-- C1 amended: idempotence of reconciliation holds for desired flows that
do not use the explicit `index` override asynchronously with their declared
order.  For a desired flow whose nodes all carry an identifier, resolvable
parents (the pure level pass succeeds), duplicate-free config keys and an
`index` that is either unset or equal to the node's own declared position,
running `create_or_update_executions` against the snapshot a successful
first run leaves behind (`convergedState`: each desired node present in
order with its computed level, names, requirement and declared config,
under arbitrary server-assigned ids) reports `changed = false`, an empty
report, no Gateway call, no failure and an empty diff — in check mode and
normal mode alike.  (Flows pinning a node elsewhere are genuinely not
idempotent: see the C1 counterexample.) -/
theorem c1_idempotent_second_run (gw : Gateway) (cfg : FlowConfig) (cm : Bool)
    (ids : Nat → String) (nodes : List NewExec) (snap : List ExistingExec)
    (hcfg : cfg.authenticationExecutions = some (some nodes))
    (hsnap : convergedState ids nodes = some snap)
    (hgw : gw.initial = snap)
    (hidx : ∀ (k : Nat) (n : NewExec), nodes[k]? = some n →
      n.index = none ∨ n.index = some (Int.ofNat k))
    (hnd : ∀ n ∈ nodes, ∀ c, n.authenticationConfig = some c → (c.map Prod.fst).Nodup) :
    (create_or_update_executions gw cfg cm).changed = false ∧
    (create_or_update_executions gw cfg cm).errLines = [] ∧
    (create_or_update_executions gw cfg cm).trace = [] ∧
    (create_or_update_executions gw cfg cm).failure = none ∧
    (create_or_update_executions gw cfg cm).before = "" ∧
    (create_or_update_executions gw cfg cm).after = "" := by
  unfold create_or_update_executions
  rw [hcfg]
  unfold convergedState at hsnap
  cases hlv : pureLevelsGo [] nodes with
  | none => rw [hlv] at hsnap; cases hsnap
  | some lvls =>
    rw [hlv] at hsnap
    have hsnap2 : convergedFrom ids 0 lvls nodes = snap := by simpa using hsnap
    obtain ⟨L2, hrun⟩ := c1_go gw cfg.aliasName cm ids nodes lvls [] [] hlv
      (by simp) (fun j n hj => by simpa using hidx j n hj) hnd
    simp only [Option.getD_some, hgw, ← hsnap2]
    rw [show ({ existing := convergedFrom ids 0 lvls nodes } : St) =
      ⟨[], ([] : List ExistingExec) ++ convergedFrom ids 0 lvls nodes,
        false, "", "", [], [], none⟩ from rfl]
    rw [show (0 : Int) = Int.ofNat ([] : List ExistingExec).length from rfl]
    simp only [List.length_nil] at hrun ⊢
    rw [hrun]
    unfold remove_extra_executions
    rw [foldl_orphan_cleared cfg.aliasName cm _ _ (by
      intro e he
      simp only [List.nil_append] at he
      exact List.eq_of_mem_replicate he)]
    simp

/-- C1 witness input: one leaf execution, pinned by an explicit `index` to
its own declared position, with a requirement and a config. -/
def c1Node : NewExec :=
  { providerId := some "exec1", requirement := some "REQUIRED",
    index := some 0, authenticationConfig := some [("a", some "1")] }

/-- Server-assigned remote ids for the C1 witness. -/
def c1Ids : Nat → String := fun i => "e" ++ toString i

/-- The converged snapshot of the C1 witness flow. -/
def c1Snap : List ExistingExec :=
  [{ id := some "e0", providerId := some "exec1", requirement := some "REQUIRED",
     index := some 0, level := some 0, authenticationConfig := some [("a", "1")] }]

/-- Flow config for the C1 witness. -/
def c1Cfg : FlowConfig :=
  { aliasName := "f", authenticationExecutions := some (some [c1Node]) }

/-- Witness for the amended C1 statement: the idempotence theorem applied to
the concrete one-node flow (its `index` explicitly pinned to its position 0)
against its converged snapshot, in normal (non-check) mode. -/
theorem c1_idempotent_second_run_witness :
    (create_or_update_executions { initial := c1Snap } c1Cfg false).changed = false ∧
    (create_or_update_executions { initial := c1Snap } c1Cfg false).errLines = [] ∧
    (create_or_update_executions { initial := c1Snap } c1Cfg false).trace = [] ∧
    (create_or_update_executions { initial := c1Snap } c1Cfg false).failure = none ∧
    (create_or_update_executions { initial := c1Snap } c1Cfg false).before = "" ∧
    (create_or_update_executions { initial := c1Snap } c1Cfg false).after = "" :=
  c1_idempotent_second_run { initial := c1Snap } c1Cfg false c1Ids [c1Node] c1Snap
    rfl (by decide) rfl
    (by
      intro k n hk
      cases k with
      | zero =>
        simp only [List.getElem?_cons_zero, Option.some.injEq] at hk
        subst hk
        right
        rfl
      | succ k2 => simp at hk)
    (by
      intro n hn c hc
      simp only [List.mem_singleton] at hn
      subst hn
      simp only [c1Node, Option.some.injEq] at hc
      subst hc
      decide)

/-- C1 counterexample input: a desired execution pinned by an explicit
`index` to position 1 of the flow. -/
def c1PinNode : NewExec :=
  { providerId := some "p", requirement := some "REQUIRED", index := some 1 }

/-- C1 counterexample input: an existing entry matching no desired node. -/
def c1Orphan : ExistingExec :=
  { id := some "oid", providerId := some "q", displayName := some "Orphan",
    requirement := some "REQUIRED", index := some 0, level := some 0 }

/-- C1 counterexample input: the existing entry matching the pinned node,
sitting at list position 1 with its `index` key equal to the pin. -/
def c1Pinned : ExistingExec :=
  { id := some "aid", providerId := some "p", requirement := some "REQUIRED",
    index := some 1, level := some 0 }

/-- Flow config for the C1 counterexample. -/
def c1CexCfg : FlowConfig :=
  { aliasName := "f", authenticationExecutions := some (some [c1PinNode]) }

/-- C1 counterexample: reconciliation is not idempotent for every desired
flow.  The flow pins its single execution to index 1; against the snapshot
`[orphan, entry]` the first normal-mode run succeeds and its only mutating
Gateway call deletes the orphan, so the state it produces is `[entry]` — the
entry now sits at list position 0 while the node still pins index 1.  The
second run against that state is anything but a `changed = false` run with
an empty report: the matcher finds the entry at position 0, the position
mismatch makes `exec_need_changes` true, and in normal mode line 340 raises
the five-argument `TypeError` (the module fails), while in check mode the
run reports `changed = true` with wrong-requirement and wrong-index lines.
(The entry's own `index` key is irrelevant here: the mismatch is between the
pinned value 1 and the matcher's list position 0.) -/
theorem c1_counterexample :
    (create_or_update_executions { initial := [c1Orphan, c1Pinned] } c1CexCfg false).failure
        = none ∧
    (create_or_update_executions { initial := [c1Orphan, c1Pinned] } c1CexCfg false).trace
        = [.deleteAuthenticationExecution "oid"] ∧
    (create_or_update_executions { initial := [c1Pinned] } c1CexCfg false).failure
        = some updCallTypeError ∧
    (create_or_update_executions { initial := [c1Pinned] } c1CexCfg true).changed = true ∧
    (create_or_update_executions { initial := [c1Pinned] } c1CexCfg true).errLines ≠ [] := by
  refine ⟨rfl, rfl, rfl, rfl, ?_⟩
  decide

end Keycloak
